import Mathlib

/-!
# Skip & Next controller (`inject.js`): a shallow embedding

The overlay controller of `inject.js` is embedded as pure functions over an
explicit state.  JavaScript numbers that carry geometry or playback time are
modelled as exact rationals (`ℚ`); the one place where the source tests for
not-a-number (`video.duration`) has its own three-valued type.  Object
identity (`===` on DOM nodes) is modelled by a numeric `id`.

* Methods of `SkipNextController` are functions `State → State` under their
  source names; what a method reads from the page (the candidate videos, the
  viewport height, the document searched for links) is an argument.
* Plain objects (the settings) are property lists, and the object spread is
  the sequence of property writes it stands for.
* Timers and listeners are events of `step`; `Reachable` closes the state
  after `init` under them.  The handlers of the skip button are also given
  one by one (`pressStep`), with the closure variable `pressTimer` in a state
  of its own; `Event.skipClick` and `Event.longPress` are their effect on the
  controller.
* A thrown `TypeError` ends the handler it occurs in; the functions return
  the state reached at that point.

Definitions come first, the lemmas and the claims `C1` to `C12` follow.
-/

namespace SkipNextController

/-! ## Page elements and video candidates -/

/-- Computed value of the CSS `position` property. -/
inductive Position where
  | static
  | relative
  | absolute
  | fixed
  | sticky
deriving DecidableEq, Repr

/-- An ancestor element of a video, as far as `getVideoContainer` and
`createSkipButton` read it: `getComputedStyle(e).position`, `e.className`,
and whether the element is `document.body`.  `svg` marks an SVG element: its
`className` is an `SVGAnimatedString` object, not a string, and `className`
is then not read as text. -/
structure Elem where
  id : Nat
  position : Position
  className : String
  isBody : Bool
  svg : Bool := false
deriving DecidableEq, Repr

/-- The fields of `getBoundingClientRect()` that the source reads. -/
structure Rect where
  width : ℚ
  height : ℚ
  top : ℚ
  bottom : ℚ
deriving DecidableEq, Repr

/-- The values `HTMLMediaElement.duration` can take: not-a-number while the
duration is unknown, a finite number of seconds, or positive infinity for an
unbounded stream. -/
inductive Duration where
  | nan
  | num (d : ℚ)
  | infinity
deriving DecidableEq, Repr

/-- A `<video>` element with the attributes the controller reads.  `ancestors`
is the `parentElement` chain, immediate parent first. -/
structure Video where
  id : Nat
  paused : Bool
  ended : Bool
  rect : Rect
  currentTime : ℚ
  duration : Duration
  ancestors : List Elem
deriving DecidableEq, Repr

/-! ## `selectBestVideo` -/

/-- The filter `v => !v.paused && !v.ended`. -/
def isPlaying (v : Video) : Bool :=
  !v.paused && !v.ended

/-- The filter `rect.width > 0 && rect.height > 0 && rect.top < window.innerHeight
&& rect.bottom > 0`. -/
def isVisible (innerHeight : ℚ) (v : Video) : Bool :=
  decide (v.rect.width > 0) && decide (v.rect.height > 0) &&
    decide (v.rect.top < innerHeight) && decide (v.rect.bottom > 0)

/-- Rendered area `rect.width * rect.height`. -/
def area (v : Video) : ℚ :=
  v.rect.width * v.rect.height

/-- The callback of the final `reduce`: keep `largest` unless `current` is
strictly larger. -/
def pickLarger (largest current : Video) : Video :=
  if area current > area largest then current else largest

/-- The method `Array.prototype.reduce` without an initial value; `none` stands for the
`TypeError` raised on an empty array. -/
def reduce {α : Type} (f : α → α → α) : List α → Option α
  | [] => none
  | x :: xs => some (xs.foldl f x)

/-- The method `selectBestVideo(videos)`; `none` is the `null` returned for no candidates. -/
def selectBestVideo (innerHeight : ℚ) (videos : List Video) : Option Video :=
  if videos.length = 0 then none
  else if videos.length = 1 then videos.head?
  else
    let playingVideos := videos.filter isPlaying
    if playingVideos.length = 1 then playingVideos.head?
    else
      let visibleVideos := videos.filter (isVisible innerHeight)
      let visibleVideos := if visibleVideos.length = 0 then videos else visibleVideos
      reduce pickLarger visibleVideos

/-! ## Strings -/

/-- The test `s.includes(t)` on character lists. -/
def includesChars : List Char → List Char → Bool
  | [], t => t.isEmpty
  | c :: cs, t => t.isPrefixOf (c :: cs) || includesChars cs t

/-- The method `String.prototype.includes`. -/
def includes (s t : String) : Bool :=
  includesChars s.toList t.toList

/-- Lower-casing of one character: the ASCII capitals and the Latin-1 capitals
(`À` to `Þ` without `×`).  The source only tests lower-cased text for the
substrings `video`, `player`, `media`, `next`, `siguiente`, `próximo` and two
arrow glyphs; on those tests this agrees with the full Unicode mapping, whose
only other sources of these letters are `İ` (which lower-cases to `i` followed
by a combining dot) and the Kelvin sign (which lower-cases to `k`). -/
def lowerChar (c : Char) : Char :=
  if (65 ≤ c.toNat ∧ c.toNat ≤ 90) ∨ (192 ≤ c.toNat ∧ c.toNat ≤ 222 ∧ c.toNat ≠ 215) then
    Char.ofNat (c.toNat + 32)
  else c

/-- The method `String.prototype.toLowerCase`, see `lowerChar`. -/
def toLowerCase (s : String) : String :=
  String.mk (s.toList.map lowerChar)

/-! ## `findNextEpisodeLinks` -/

/-- A DOM element as far as the link search reads it.  `hrefAttr` is the
`href` attribute the CSS attribute selectors test; `href` is the `href`
property (the resolved URL), `none` for an element that has no such property.
`svgHref` marks an SVG `a` element: its `href` property is an
`SVGAnimatedString` object, which is truthy, equals no string and has no
`includes` method; the field `href` is then not read.  `ancestorClasses`
lists the class lists of the element's ancestors.  The document is in
no-quirks mode (class selectors are case-sensitive). -/
structure PageElement where
  id : Nat
  isAnchor : Bool
  hrefAttr : Option String
  href : Option String
  classList : List String
  title : Option String
  textContent : String
  ancestorClasses : List (List String)
  svgHref : Bool := false
deriving DecidableEq, Repr

/-- The document the link search runs on: `window.location.href` and the
elements in document order. -/
structure Page where
  url : String
  elements : List PageElement
deriving DecidableEq, Repr

/-- The shapes of selector the source uses. -/
inductive Selector where
  /-- Selector `a[href*="kw"]:not([href*="excl"])`. -/
  | hrefWithout (kw excl : String)
  /-- Selector `a.cls`. -/
  | anchorClass (cls : String)
  /-- Selector `.cls a`. -/
  | anchorInside (cls : String)
  /-- Selector `.outer .cls`. -/
  | classInside (outer cls : String)
  /-- Selector `a[title*="t"]`. -/
  | anchorTitle (t : String)
  /-- Pseudo-selector `a:contains("text")`, which the source evaluates by hand. -/
  | contains (text : String)
  /-- Selector `a[href*="s"]`. -/
  | hrefHas (s : String)
deriving DecidableEq, Repr

/-- The attribute test `[attr*="s"]` on an optional attribute value. -/
def attrHas (attr : Option String) (s : String) : Bool :=
  match attr with
  | some v => includes v s
  | none => false

/-- Whether `el` is matched by the selector.  For `contains` this is the
source's own test: base selector `a`, then
`el.textContent.toLowerCase().includes(searchText.toLowerCase())`. -/
def Selector.matches (sel : Selector) (el : PageElement) : Bool :=
  match sel with
  | .hrefWithout kw excl => el.isAnchor && attrHas el.hrefAttr kw && !attrHas el.hrefAttr excl
  | .anchorClass cls => el.isAnchor && el.classList.contains cls
  | .anchorInside cls => el.isAnchor && el.ancestorClasses.any (fun cs => cs.contains cls)
  | .classInside outer cls =>
      el.classList.contains cls && el.ancestorClasses.any (fun cs => cs.contains outer)
  | .anchorTitle t => el.isAnchor && attrHas el.title t
  | .contains text =>
      el.isAnchor && includes (toLowerCase el.textContent) (toLowerCase text)
  | .hrefHas s => el.isAnchor && attrHas el.hrefAttr s

/-- The call `document.querySelectorAll(selector)`: the matching elements in document
order. -/
def querySelectorAll (page : Page) (sel : Selector) : List PageElement :=
  page.elements.filter sel.matches

/-- The `selectors` table of `findNextEpisodeLinks`, in source order. -/
def selectors : List Selector :=
  [ .hrefWithout "episode-" "previous",
    .hrefWithout "capitulo-" "anterior",
    .hrefWithout "cap-" "anterior",
    .anchorClass "next-episode",
    .anchorClass "siguiente",
    .anchorInside "next-chapter",
    .classInside "episode-nav" "next",
    .classInside "navigation" "next",
    .anchorTitle "next",
    .anchorTitle "siguiente",
    .anchorTitle "próximo",
    .contains "Next",
    .contains "Siguiente",
    .contains "Próximo",
    .contains "→",
    .contains "►" ]

/-- The first loop of `findNextEpisodeLinks`: every selector's matches pushed
onto `links`, selector by selector. -/
def structuralLinks (page : Page) : List PageElement :=
  selectors.foldl (fun links sel => links ++ querySelectorAll page sel) []

/-- The entries of `episodePatterns`. -/
inductive EpisodePattern where
  /-- Pattern `/kw(\d+)/i` for a lower-case keyword `kw`. -/
  | keyword (kw : String)
  /-- Pattern `/(\d+)(?!.*\d)/`. -/
  | lastNumber
deriving DecidableEq, Repr

/-- The `episodePatterns` table, in source order. -/
def episodePatterns : List EpisodePattern :=
  [ .keyword "episode-", .keyword "capitulo-", .keyword "cap-", .keyword "ep-", .lastNumber ]

/-- The class `\d`: an ASCII decimal digit. -/
def isDigit (c : Char) : Bool :=
  decide (48 ≤ c.toNat ∧ c.toNat ≤ 57)

/-- The characters `.` does not match. -/
def isLineTerminator (c : Char) : Bool :=
  c.toNat == 10 || c.toNat == 13 || c.toNat == 8232 || c.toNat == 8233

/-- Matches the keyword at the head of the input, ignoring ASCII case (a
case-insensitive regular expression without the unicode flag never folds a
character above U+007F onto an ASCII one); returns the rest of the input. -/
def stripKeyword : List Char → List Char → Option (List Char)
  | [], input => some input
  | _ :: _, [] => none
  | k :: ks, c :: cs => if c.toLower == k then stripKeyword ks cs else none

/-- The call `url.match(/kw(\d+)/i)`: the capture group of the leftmost match. -/
def matchKeyword (kw : List Char) : List Char → Option (List Char)
  | [] => none
  | c :: cs =>
    match stripKeyword kw (c :: cs) with
    | some rest =>
      if (rest.takeWhile isDigit).isEmpty then matchKeyword kw cs
      else some (rest.takeWhile isDigit)
    | none => matchKeyword kw cs

/-- The call `url.match(/(\d+)(?!.*\d)/)`: the capture group of the leftmost match.  At
a digit the greedy run is tried first; any shorter run is followed by a digit
and so fails the look-ahead. -/
def matchLastNumber : List Char → Option (List Char)
  | [] => none
  | c :: cs =>
    if isDigit c then
      if (((c :: cs).dropWhile isDigit).takeWhile (fun x => !isLineTerminator x)).any isDigit then
        matchLastNumber cs
      else some ((c :: cs).takeWhile isDigit)
    else matchLastNumber cs

/-- The call `currentUrl.match(pattern)`, reduced to `match[1]`. -/
def EpisodePattern.exec (p : EpisodePattern) (url : String) : Option (List Char) :=
  match p with
  | .keyword kw => matchKeyword kw.toList url.toList
  | .lastNumber => matchLastNumber url.toList

/-- The function `parseInt` on a run of decimal digits.  Exact arithmetic: it agrees with
the source for values below `2 ^ 53`. -/
def parseInt (digits : List Char) : Nat :=
  digits.foldl (fun n c => n * 10 + (c.toNat - 48)) 0

/-- The `for ... break` loop over `episodePatterns`: the episode number under
the first pattern that matches the page URL. -/
def currentEpisode (url : String) : Option Nat :=
  (episodePatterns.findSome? (fun p => p.exec url)).map parseInt

/-- The filter of the numeric loop:
`!link.href.includes(current) || link.href.includes(next)`, for a link whose
`href` is a string.  On any other link the test throws, see `numericThrows`;
such a link is not pushed. -/
def keepNumeric (current next : Nat) (link : PageElement) : Bool :=
  if link.svgHref then false
  else
    match link.href with
    | some h => !includes h (toString current) || includes h (toString next)
    | none => false

/-- The links pushed by the numeric loop. -/
def numericLinks (page : Page) : List PageElement :=
  match currentEpisode page.url with
  | some current =>
    (querySelectorAll page (.hrefHas (toString (current + 1)))).filter
      (keepNumeric current (current + 1))
  | none => []

/-- Whether the numeric loop throws: `link.href.includes` is a `TypeError` on
a link matched by the selector of the next number whose `href` is not a
string (an SVG `a`, or an `a` without the property).  The loop is outside
the `try` of the selector loop, so the error leaves `findNextEpisodeLinks`. -/
def numericThrows (page : Page) : Bool :=
  match currentEpisode page.url with
  | some current =>
    (querySelectorAll page (.hrefHas (toString (current + 1)))).any
      (fun link => link.svgHref || link.href.isNone)
  | none => false

/-- The expression `[...new Set(links)]`: first occurrences, in insertion order; elements
are compared by identity. -/
def uniqueById (links : List PageElement) : List PageElement :=
  links.foldl (fun acc l => if acc.any (fun x => x.id == l.id) then acc else acc ++ [l]) []

/-- The final filter `link.href && link.href !== window.location.href`.  The
`href` object of an SVG `a` passes it. -/
def validLink (page : Page) (link : PageElement) : Bool :=
  if link.svgHref then true
  else
    match link.href with
    | some h => !h.isEmpty && h != page.url
    | none => false

/-- The list `uniqueLinks` that `findNextEpisodeLinks()` builds and returns.
The call returns it unless the numeric loop throws (`numericThrows`);
`findNextEpisodeLinksCall` is the call with that error. -/
def findNextEpisodeLinks (page : Page) : List PageElement :=
  (uniqueById (structuralLinks page ++ numericLinks page)).filter (validLink page)

/-- The call `findNextEpisodeLinks()`: `none` is the `TypeError` of the numeric
loop, after which nothing is returned. -/
def findNextEpisodeLinksCall (page : Page) : Option (List PageElement) :=
  if numericThrows page then none else some (findNextEpisodeLinks page)

/-! ## Settings objects -/

/-- The JSON scalars a settings field can hold. -/
inductive JSVal where
  | null
  | bool (b : Bool)
  | num (n : ℚ)
  | str (s : String)
deriving DecidableEq, Repr

/-- A plain JavaScript object: its own properties in insertion order. -/
abbrev JSObject := List (String × JSVal)

/-- Property read `o[k]`; `none` is `undefined`. -/
def JSObject.get (o : JSObject) (k : String) : Option JSVal :=
  (o.find? (fun p => p.1 == k)).map (fun p => p.2)

/-- Property write `o[k] = v`: an existing property keeps its place, a new one
goes last. -/
def JSObject.set (o : JSObject) (k : String) (v : JSVal) : JSObject :=
  if o.any (fun p => p.1 == k) then o.map (fun p => if p.1 == k then (k, v) else p)
  else o ++ [(k, v)]

/-- Object spread: the properties of `a`, then those of `b`, are written in
order onto a fresh object. -/
def spread (a b : JSObject) : JSObject :=
  b.foldl (fun (acc : JSObject) (p : String × JSVal) => JSObject.set acc p.1 p.2)
    (a.foldl (fun (acc : JSObject) (p : String × JSVal) => JSObject.set acc p.1 p.2) [])

/-- The settings literal of the constructor. -/
def defaultSettings : JSObject :=
  [ ("skipTime", .num 85),
    ("nextBehavior", .str "auto"),
    ("skipButtonEnabled", .bool true),
    ("nextButtonEnabled", .bool true) ]

/-! ## Controller state -/

/-- The kinds of element the controller adds to the page. -/
inductive Kind where
  | skipButton
  | nextButton
  | skipFeedback
  | autoNextPrompt
  | configPanel
  | message
deriving DecidableEq, Repr

/-- Where an added element is appended: `document.body` or the video
container with the given element id. -/
inductive Host where
  | body
  | container (id : Nat)
deriving DecidableEq, Repr

/-- An element added by the controller that is currently in the document.
The text of the controls is not modelled. -/
structure Node where
  id : Nat
  kind : Kind
  parent : Host
deriving DecidableEq, Repr

/-- The fields of the controller object together with the part of the page it
acts on.  `currentVideo` holds the selected element with its attributes;
`dom` lists the added elements that are in the document; `endListeners` lists
the `ended` listeners as pairs of video id and handler id; `storage` is the
persisted settings record; `pollActive` tells whether the 2 s interval runs;
`nextId` numbers the objects the controller creates. -/
structure State where
  skipButton : Option Nat
  nextButton : Option Nat
  configPanel : Option Nat
  currentVideo : Option Video
  settings : JSObject
  videoEndHandler : Option Nat
  dom : List Node
  endListeners : List (Nat × Nat)
  storage : Option JSObject
  pollActive : Bool
  nextId : Nat
deriving DecidableEq, Repr

/-- The constructor, up to the call of `init`. -/
def constructor : State :=
  { skipButton := none
    nextButton := none
    configPanel := none
    currentVideo := none
    settings := defaultSettings
    videoEndHandler := none
    dom := []
    endListeners := []
    storage := none
    pollActive := false
    nextId := 0 }

/-- The method `loadSettings()`.  `persisted` is the stored `skipNextSettings` record,
`none` when nothing is stored (in the `localStorage` branch: when nothing is
stored or the stored text does not parse). -/
def loadSettings (persisted : Option JSObject) (s : State) : State :=
  match persisted with
  | some p => { s with settings := spread s.settings p, storage := persisted }
  | none => { s with storage := persisted }

/-- The method `saveSettings()`. -/
def saveSettings (s : State) : State :=
  { s with storage := some s.settings }

/-- The call `node.remove()` / `parentNode.removeChild(node)`. -/
def removeNode (id : Nat) (dom : List Node) : List Node :=
  dom.filter (fun n => n.id != id)

/-- The call `parent.appendChild(document.createElement(..))` for a fresh element. -/
def appendNode (kind : Kind) (parent : Host) (s : State) : State :=
  { s with dom := s.dom ++ [{ id := s.nextId, kind := kind, parent := parent }]
           nextId := s.nextId + 1 }

/-- The method `removeButtons()`. -/
def removeButtons (s : State) : State :=
  let s1 :=
    match s.skipButton with
    | some b => { s with dom := removeNode b s.dom, skipButton := none }
    | none => s
  match s1.nextButton with
  | some b => { s1 with dom := removeNode b s1.dom, nextButton := none }
  | none => s1

/-- The test `className.includes('video') || className.includes('player') ||
className.includes('media')` on the lower-cased class name, for an element
whose `className` is a string (`walkContainer` has the other case). -/
def classHint (e : Elem) : Bool :=
  includes (toLowerCase e.className) "video" || includes (toLowerCase e.className) "player" ||
    includes (toLowerCase e.className) "media"

/-- The test `position === 'relative' || 'absolute' || 'fixed'`. -/
def positioned (e : Elem) : Bool :=
  e.position == .relative || e.position == .absolute || e.position == .fixed

/-- The `while` loop of `getVideoContainer` over the parent chain.  The inner
`none` is the `null` reached above the root element.  The outer `none` is
the `TypeError` of `container.className.toLowerCase()` on an SVG element,
which has no such method; the position test comes first, so a positioned
SVG element ends the loop before its class name is read. -/
def walkContainer : List Elem → Option (Option Elem)
  | [] => some none
  | e :: rest =>
    if e.isBody then some (some e)
    else if positioned e then some (some e)
    else if e.svg then none
    else if classHint e then some (some e)
    else walkContainer rest

/-- The body of `getVideoContainer()` for a given current video:
`container || this.currentVideo.parentElement` after the loop; the outer
`none` is the `TypeError` of the loop. -/
def videoContainer (v : Video) : Option (Option Elem) :=
  match walkContainer v.ancestors with
  | none => none
  | some (some e) => some (some e)
  | some none => some v.ancestors.head?

/-- The method `getVideoContainer()`.  The outer `none` is a `TypeError`: that of
reading `parentElement` of a `null` current video, or that of the loop; the
inner `none` is a `null` result. -/
def getVideoContainer (s : State) : Option (Option Elem) :=
  s.currentVideo.bind videoContainer

/-- The write `container.style.position = 'relative'` on a statically positioned
container, recorded in the parent chain of the current video. -/
def forceRelative (container : Elem) (v : Video) : Video :=
  { v with ancestors := v.ancestors.map (fun e =>
      if e.id == container.id && e.position == .static then { e with position := .relative }
      else e) }

/-- The method `createSkipButton(container)`. -/
def createSkipButton (container : Elem) (s : State) : State :=
  let s1 := { s with skipButton := some s.nextId }
  let s2 :=
    if container.position == .static then
      { s1 with currentVideo := s1.currentVideo.map (forceRelative container) }
    else s1
  appendNode .skipButton (.container container.id) s2

/-- The method `createNextButton(container)`. -/
def createNextButton (container : Elem) (s : State) : State :=
  appendNode .nextButton (.container container.id) { s with nextButton := some s.nextId }

/-- The test `this.settings.nextBehavior === value`. -/
def nextBehaviorIs (s : State) (value : String) : Bool :=
  s.settings.get "nextBehavior" == some (.str value)

/-- The method `setupVideoEndListener()`: under `auto` with a current video, the handler
held in `videoEndHandler` is taken off the current video and a fresh one is
put on. -/
def setupVideoEndListener (s : State) : State :=
  match s.currentVideo with
  | some v =>
    if nextBehaviorIs s "auto" then
      { s with
        endListeners :=
          (s.endListeners.filter (fun l => !(l.1 == v.id && some l.2 == s.videoEndHandler)))
            ++ [(v.id, s.nextId)]
        videoEndHandler := some s.nextId
        nextId := s.nextId + 1 }
    else s
  | none => s

/-- The method `createButtons()`.  When `getVideoContainer` throws, the method ends
there, as it does on a `null` container. -/
def createButtons (s : State) : State :=
  match s.currentVideo with
  | none => s
  | some v =>
    match videoContainer v with
    | none => s
    | some none => s
    | some (some container) =>
      let s1 := createSkipButton container s
      let s2 := if nextBehaviorIs s1 "manual" then createNextButton container s1 else s1
      setupVideoEndListener s2

/-- The method `detectVideosNow()`, given the result of `getAllVideos()` and
`window.innerHeight`.  Candidates are compared with the current video by
identity. -/
def detectVideosNow (innerHeight : ℚ) (videos : List Video) (s : State) : State :=
  if videos.length = 0 then s
  else
    match selectBestVideo innerHeight videos with
    | none => s
    | some targetVideo =>
      if s.currentVideo.map (fun v => v.id) != some targetVideo.id then
        createButtons (removeButtons { s with currentVideo := some targetVideo })
      else s

/-- The method `showSkipFeedback()`.  A `null` container makes `appendChild` throw, and
no toast is added; nor is one when `getVideoContainer` throws. -/
def showSkipFeedback (s : State) : State :=
  match getVideoContainer s with
  | some (some container) => appendNode .skipFeedback (.container container.id) s
  | _ => s

/-- A JavaScript number: not-a-number, a finite value, or an infinity. -/
inductive JSNum where
  | nan
  | num (q : ℚ)
  | posInf
  | negInf
deriving DecidableEq, Repr

/-- Whether a rational is a double: an integer below `2 ^ 53` in absolute
value times a power of two between `2 ^ (-1074)` and `2 ^ 971`.  On such a
value the rounding of a double operation does nothing. -/
def isDouble (x : ℚ) : Prop :=
  ∃ m e : ℤ, |m| < 2 ^ 53 ∧ -1074 ≤ e ∧ e ≤ 971 ∧ x = m * (2 : ℚ) ^ e

/-- The sum `currentTime + this.settings.skipTime`.  A number is added, and
the sum is exact: it is the sum the code computes whenever the exact sum is
a double (`isDouble`).  A boolean counts 1 or 0 and `null` counts 0; an
`undefined` setting gives not-a-number.  With a string setting the source
concatenates, and `Math.min` then converts the text to a number: `coerced`
stands for that number, which the engine supplies. -/
def addSkip (coerced : JSNum) (t : ℚ) (skip : Option JSVal) : JSNum :=
  match skip with
  | some (.num n) => .num (t + n)
  | some (.bool b) => .num (t + (if b then 1 else 0))
  | some .null => .num t
  | none => .nan
  | some (.str _) => coerced

/-- The call `Math.min(x, duration)`. -/
def minDuration (x : JSNum) (d : Duration) : JSNum :=
  match d, x with
  | .nan, _ => .nan
  | _, .nan => .nan
  | _, .negInf => .negInf
  | .num d, .posInf => .num d
  | .infinity, .posInf => .posInf
  | .num d, .num x => .num (min x d)
  | .infinity, .num x => .num x

/-- The assignment `video.currentTime = x`.  A value that is not finite makes
the setter throw (`none`).  A finite value is sought: the element moves to
it, and to the start (0) when the value lies before the start.  The media is
taken to be seekable from 0 to its duration; the source has already bounded
the value by the duration. -/
def setCurrentTime (x : JSNum) (v : Video) : Option Video :=
  match x with
  | .num q => some { v with currentTime := max q 0 }
  | _ => none

/-- The method `skipTime()`, given the number `coerced` that a string setting
converts to.  When the setter throws, the video and the page stay as they
were and no toast is shown. -/
def skipTime (coerced : JSNum) (s : State) : State :=
  match s.currentVideo with
  | none => s
  | some v =>
    if v.duration = .nan then s
    else
      match setCurrentTime
          (minDuration (addSkip coerced v.currentTime (s.settings.get "skipTime")) v.duration)
          v with
      | none => s
      | some moved => showSkipFeedback { s with currentVideo := some moved }

/-- The method `showMessage(text)`. -/
def showMessage (s : State) : State :=
  appendNode .message .body s

/-- The method `goToNext()`: with a link found the page is left through it and the
controller is untouched; with none the message is shown; and when
`findNextEpisodeLinks` throws the method ends there. -/
def goToNext (page : Page) (s : State) : State :=
  match findNextEpisodeLinksCall page with
  | none => s
  | some nextLinks => if nextLinks.length > 0 then s else showMessage s

/-- The method `showAutoNextPrompt()`. -/
def showAutoNextPrompt (s : State) : State :=
  if s.dom.any (fun n => n.kind == .autoNextPrompt) then s
  else appendNode .autoNextPrompt .body s

/-- The method `showConfigPanel()`. -/
def showConfigPanel (s : State) : State :=
  if s.configPanel.isSome then s
  else appendNode .configPanel .body { s with configPanel := some s.nextId }

/-- The method `hideConfigPanel()`. -/
def hideConfigPanel (s : State) : State :=
  match s.configPanel with
  | some p => { s with dom := removeNode p s.dom, configPanel := none }
  | none => s

/-- The method `updateButtons()`.  The result is `Except.error` with the state
reached when `getVideoContainer` throws. -/
def updateButtons (s : State) : Except State State :=
  if nextBehaviorIs s "manual" && s.nextButton.isNone then
    match getVideoContainer s with
    | none => .error s
    | some (some container) => .ok (setupVideoEndListener (createNextButton container s))
    | some none => .ok (setupVideoEndListener s)
  else if nextBehaviorIs s "auto" && s.nextButton.isSome then
    match s.nextButton with
    | some b => .ok (setupVideoEndListener { s with dom := removeNode b s.dom, nextButton := none })
    | none => .ok (setupVideoEndListener s)
  else .ok (setupVideoEndListener s)

/-- The value of a radio input of the settings panel. -/
inductive Radio where
  | auto
  | manual
deriving DecidableEq, Repr

/-- The `value` attribute of the radio input. -/
def Radio.value : Radio → String
  | .auto => "auto"
  | .manual => "manual"

/-- The click handler of the save button.  `slider` is `parseInt(slider.value)`;
`checked` is the checked radio input, and with none checked the handler
throws before it changes anything. -/
def saveClick (slider : Int) (checked : Option Radio) (s : State) : State :=
  match checked with
  | none => s
  | some r =>
    let s1 := { s with settings :=
      (s.settings.set "skipTime" (.num slider)).set "nextBehavior" (.str r.value) }
    match updateButtons (saveSettings s1) with
    | .ok s2 => hideConfigPanel s2
    | .error s2 => s2

/-- The method `destroy()`. -/
def destroy (s : State) : State :=
  let s1 := removeButtons s
  let s2 :=
    match s1.configPanel with
    | some p => { s1 with dom := removeNode p s1.dom }
    | none => s1
  { s2 with pollActive := false }

/-- The method `setupVideoDetection()`: the immediate detection pass, and the interval. -/
def setupVideoDetection (innerHeight : ℚ) (videos : List Video) (s : State) : State :=
  { detectVideosNow innerHeight videos s with pollActive := true }

/-- The method `init()`, run by the constructor: settings are loaded before detection
starts. -/
def init (persisted : Option JSObject) (innerHeight : ℚ) (videos : List Video) : State :=
  setupVideoDetection innerHeight videos (loadSettings persisted constructor)

/-! ## Events -/

/-- What can happen to a constructed controller. -/
inductive Event where
  /-- A detection pass (poll, mutation, navigation or media event). -/
  | detect (innerHeight : ℚ) (videos : List Video)
  /-- A click on the skip button; `coerced` is the number a string `skipTime`
  setting converts to (see `addSkip`), and is not read otherwise. -/
  | skipClick (coerced : JSNum)
  /-- The 800 ms press timer of a skip button fires.  The timer is not cleared
  when its button leaves the document, so the event is not tied to a mounted
  button; whether a press is pending is tracked by `pressStep` only. -/
  | longPress
  /-- A click on the save button of the panel. -/
  | save (slider : Int) (checked : Option Radio)
  /-- A click on the cancel button of the panel, or on its backdrop. -/
  | cancel
  /-- A click on the next button. -/
  | nextClick (page : Page)
  /-- The `ended` event of a video. -/
  | videoEnded (videoId : Nat)
  /-- The countdown of a prompt reaches zero. -/
  | promptCountdown (promptId : Nat) (page : Page)
  /-- A click on the cancel button of a prompt. -/
  | promptCancel (promptId : Nat)
  /-- The 6 s clean-up timer of a prompt fires. -/
  | promptCleanup (promptId : Nat)
  /-- The 2 s timer of a feedback toast fires. -/
  | feedbackTimeout (nodeId : Nat)
  /-- The 3 s timer of a message fires. -/
  | messageTimeout (nodeId : Nat)
  /-- The page changes the attributes of the current video (playback, layout). -/
  | mediaUpdate (v : Video)
  /-- The page unloads. -/
  | destroy
deriving DecidableEq, Repr

/-- Whether an element of the given kind is in the document. -/
def mounted (kind : Kind) (s : State) : Bool :=
  s.dom.any (fun n => n.kind == kind)

/-- Whether the element with the given id and kind is in the document. -/
def mountedNode (id : Nat) (kind : Kind) (s : State) : Bool :=
  s.dom.any (fun n => n.id == id && n.kind == kind)

/-- One event.  The result is `none` when the event cannot happen in the state
(a click needs its button in the document, a timer its element created). -/
def step (e : Event) (s : State) : Option State :=
  match e with
  | .detect innerHeight videos => some (detectVideosNow innerHeight videos s)
  | .skipClick coerced => if mounted .skipButton s then some (skipTime coerced s) else none
  | .longPress => some (showConfigPanel s)
  | .save slider checked =>
      if mounted .configPanel s then some (saveClick slider checked s) else none
  | .cancel => if mounted .configPanel s then some (hideConfigPanel s) else none
  | .nextClick page => if mounted .nextButton s then some (goToNext page s) else none
  | .videoEnded videoId =>
      if s.endListeners.any (fun l => l.1 == videoId) then some (showAutoNextPrompt s)
      else some s
  | .promptCountdown promptId page =>
      if mountedNode promptId .autoNextPrompt s then
        some (goToNext page { s with dom := removeNode promptId s.dom })
      else none
  | .promptCancel promptId =>
      if mountedNode promptId .autoNextPrompt s then
        some { s with dom := removeNode promptId s.dom }
      else none
  | .promptCleanup promptId =>
      if mountedNode promptId .autoNextPrompt s then
        some { s with dom := removeNode promptId s.dom }
      else some s
  | .feedbackTimeout nodeId =>
      if mountedNode nodeId .skipFeedback s then some { s with dom := removeNode nodeId s.dom }
      else some s
  | .messageTimeout nodeId =>
      if mountedNode nodeId .message s then some { s with dom := removeNode nodeId s.dom }
      else some s
  | .mediaUpdate v =>
      if s.currentVideo.map (fun c => c.id) == some v.id then
        some { s with currentVideo := some v }
      else none
  | .destroy => some (destroy s)

/-- Runs a list of events from a state. -/
def run : List Event → State → Option State
  | [], s => some s
  | e :: es, s => (step e s).bind (run es)

/-- The states a controller can be in: those after `init`, closed under the
events. -/
inductive Reachable : State → Prop where
  | init (persisted : Option JSObject) (innerHeight : ℚ) (videos : List Video) :
      Reachable (init persisted innerHeight videos)
  | step (e : Event) {s t : State} : Reachable s → step e s = some t → Reachable t

/-- The number of elements of a kind in the document. -/
def countKind (kind : Kind) (s : State) : Nat :=
  (s.dom.filter (fun n => n.kind == kind)).length

/-! ## Example inputs -/

/-- Candidates `A` (paused), `B` (playing), `C` (paused), where `B` is the
smallest and lies outside the viewport. -/
def c1Videos : List Video :=
  [ { id := 1, paused := true, ended := false, rect := ⟨640, 360, 0, 360⟩, currentTime := 0,
      duration := .num 60, ancestors := [] },
    { id := 2, paused := false, ended := false, rect := ⟨10, 10, 5000, 5010⟩, currentTime := 3,
      duration := .num 60, ancestors := [] },
    { id := 3, paused := true, ended := false, rect := ⟨1280, 720, 0, 720⟩, currentTime := 0,
      duration := .num 60, ancestors := [] } ]

/-- The playing candidate `B` of `c1Videos`. -/
def c1Playing : Video :=
  { id := 2, paused := false, ended := false, rect := ⟨10, 10, 5000, 5010⟩, currentTime := 3,
    duration := .num 60, ancestors := [] }

/-- Three paused candidates with boxes 100x100, 50x50 and 200x10, all inside
a viewport of height 800. -/
def c2Videos : List Video :=
  [ { id := 1, paused := true, ended := false, rect := ⟨100, 100, 0, 100⟩, currentTime := 0,
      duration := .nan, ancestors := [] },
    { id := 2, paused := true, ended := false, rect := ⟨50, 50, 100, 150⟩, currentTime := 0,
      duration := .nan, ancestors := [] },
    { id := 3, paused := true, ended := false, rect := ⟨200, 10, 150, 160⟩, currentTime := 0,
      duration := .nan, ancestors := [] } ]

/-- A video at 100 s of 120 s inside a positioned player element. -/
def c3Video : Video :=
  { id := 7, paused := false, ended := false, rect := ⟨640, 360, 0, 360⟩, currentTime := 100,
    duration := .num 120,
    ancestors :=
      [ { id := 20, position := .relative, className := "player", isBody := false },
        { id := 21, position := .static, className := "", isBody := true } ] }

/-- The controller with default settings (skip 85 s) and `c3Video` selected. -/
def c3State : State :=
  init none 800 [c3Video]

/-- The same video while its duration is still unknown. -/
def c3Unknown : Video :=
  { c3Video with duration := .nan }

/-- The same video as an unbounded stream. -/
def c3Stream : Video :=
  { c3Video with duration := .infinity }

/-- The controller with a persisted skip of -500 s and `c3Video` selected. -/
def c3Backwards : State :=
  init (some [("skipTime", .num (-500))]) 800 [c3Video]

/-- The controller with the persisted string setting `"60"` and `c3Video`
selected. -/
def c3Text : State :=
  init (some [("skipTime", .str "60")]) 800 [c3Video]

/-- The persisted record that only sets `skipTime` to 60. -/
def c4Persisted : JSObject :=
  [("skipTime", .num 60)]

/-- A state after `init` found `c3Video`: it is selected and the skip button
is mounted in its player element. -/
def c9State : State :=
  init none 800 [c3Video]

/-- The page `cap-12.html` of the numeric example, with one anchor to
`cap-13.html`. -/
def c7Page : Page :=
  { url := "https://site.example/anime/cap-12.html"
    elements :=
      [ { id := 1, isAnchor := true, hrefAttr := some "cap-13.html",
          href := some "https://site.example/anime/cap-13.html", classList := [],
          title := none, textContent := "Cap 13", ancestorClasses := [] } ] }

/-- The anchor of `c7Page`. -/
def c7Anchor : PageElement :=
  { id := 1, isAnchor := true, hrefAttr := some "cap-13.html",
    href := some "https://site.example/anime/cap-13.html", classList := [],
    title := none, textContent := "Cap 13", ancestorClasses := [] }

/-- The page `cap-12.html` with an anchor to `cap-13.html` and an anchor to
the comments of `cap-12.html` itself. -/
def c7PageComments : Page :=
  { url := "https://site.example/anime/cap-12.html"
    elements :=
      [ { id := 1, isAnchor := true, hrefAttr := some "cap-13.html",
          href := some "https://site.example/anime/cap-13.html", classList := [],
          title := none, textContent := "Cap 13", ancestorClasses := [] },
        { id := 2, isAnchor := true, hrefAttr := some "cap-12.html#comments",
          href := some "https://site.example/anime/cap-12.html#comments", classList := [],
          title := none, textContent := "Comentarios", ancestorClasses := [] } ] }

/-- The page `cap-12.html` with the anchor of `c7Page` and, inside an inline
`<svg>`, an SVG `a` whose `href` attribute contains `13`. -/
def c7PageSvg : Page :=
  { url := "https://site.example/anime/cap-12.html"
    elements :=
      [ { id := 1, isAnchor := true, hrefAttr := some "cap-13.html",
          href := some "https://site.example/anime/cap-13.html", classList := [],
          title := none, textContent := "Cap 13", ancestorClasses := [] },
        { id := 2, isAnchor := true, hrefAttr := some "/x/13", href := none, classList := [],
          title := none, textContent := "", ancestorClasses := [], svgHref := true } ] }

/-- An anchor with an absolute path to `cap-13.html`. -/
def c6First : PageElement :=
  { id := 1, isAnchor := true, hrefAttr := some "/anime/cap-13.html",
    href := some "https://site.example/anime/cap-13.html", classList := ["next-episode"],
    title := none, textContent := "Siguiente", ancestorClasses := [] }

/-- Another anchor, with a relative path to the same `cap-13.html`. -/
def c6Second : PageElement :=
  { id := 2, isAnchor := true, hrefAttr := some "cap-13.html",
    href := some "https://site.example/anime/cap-13.html", classList := [],
    title := none, textContent := "13", ancestorClasses := [] }

/-- The page `cap-12.html` with the two anchors that share a target. -/
def c6Page : Page :=
  { url := "https://site.example/anime/cap-12.html", elements := [c6First, c6Second] }

/-! ## Invariants -/

/-- The link between the controller's references and the document: element
ids are distinct and below the object counter, every mounted skip button,
next button or panel is the one the controller refers to, and at most one
prompt is mounted. -/
structure Consistent (s : State) : Prop where
  nodup : (s.dom.map (fun n => n.id)).Nodup
  fresh : ∀ n ∈ s.dom, n.id < s.nextId
  skip : ∀ n ∈ s.dom, n.kind = .skipButton → s.skipButton = some n.id
  next : ∀ n ∈ s.dom, n.kind = .nextButton → s.nextButton = some n.id
  panel : ∀ n ∈ s.dom, n.kind = .configPanel → s.configPanel = some n.id
  prompt : countKind .autoNextPrompt s ≤ 1

/-- The controller refers to a next button only under the `manual` setting. -/
def ManualOnly (s : State) : Prop :=
  s.nextButton.isSome = true → nextBehaviorIs s "manual" = true

/-- The invariant of the controller. -/
def Invariant (s : State) : Prop :=
  Consistent s ∧ ManualOnly s

/-! ## Example runs -/

/-- The state after two clicks on the skip button of `c9State`; `constructor`
stands in should the run be impossible. -/
def c8TwoClicks : State :=
  (run [.skipClick .nan, .skipClick .nan] c9State).getD constructor

/-- A run from `c9State`: the video ends, the panel is opened and saved with
`manual`, and the panel is opened again. -/
def c8Events : List Event :=
  [.videoEnded 7, .longPress, .save 60 (some .manual), .longPress]

/-- The state after `c8Events`; `constructor` stands in should the run be
impossible. -/
def c8State : State :=
  (run c8Events c9State).getD constructor

/-- The state after `init` with a persisted `manual` setting on a page with
`c3Video`. -/
def c10State : State :=
  init (some [("nextBehavior", .str "manual")]) 800 [c3Video]

/-! ## The press handlers of the skip button -/

/-- The closure of `createSkipButton` and the browser's timers: `pressTimer`
is the variable of that name (`none` while it is undefined), `timers` lists
the handles that were set and have neither fired nor been cleared, and
`nextTimer` is the handle the next `setTimeout` returns. -/
structure PressState where
  pressTimer : Option Nat
  timers : List Nat
  nextTimer : Nat
deriving DecidableEq, Repr

/-- The call `clearTimeout(pressTimer)`. -/
def clearPressTimer (p : PressState) : PressState :=
  match p.pressTimer with
  | some t => { p with timers := p.timers.filter (fun x => x != t) }
  | none => p

/-- The events the handlers of `createSkipButton` react to. -/
inductive PressEvent where
  /-- The `mousedown` listener: `pressTimer = setTimeout(.., 800)`. -/
  | mousedown
  /-- The 800 ms timer with the given handle fires: `this.showConfigPanel()`. -/
  | pressTimeout (timer : Nat)
  /-- The `mouseup` listener: `clearTimeout(pressTimer)`. -/
  | mouseup
  /-- The `click` listener: `clearTimeout(pressTimer); this.skipTime()`;
  `coerced` is as in `Event.skipClick`. -/
  | click (coerced : JSNum)
  /-- The `mouseleave` listener: `clearTimeout(pressTimer)`. -/
  | mouseleave
deriving DecidableEq, Repr

/-- One event of the skip button.  The result is `none` when the event cannot
happen (a mouse event needs the button in the document, a timer must be
pending). -/
def pressStep (e : PressEvent) (ps : PressState × State) : Option (PressState × State) :=
  match e with
  | .mousedown =>
      if mounted .skipButton ps.2 then
        some ({ pressTimer := some ps.1.nextTimer
                timers := ps.1.timers ++ [ps.1.nextTimer]
                nextTimer := ps.1.nextTimer + 1 }, ps.2)
      else none
  | .pressTimeout timer =>
      if ps.1.timers.contains timer then
        some ({ ps.1 with timers := ps.1.timers.filter (fun x => x != timer) },
          showConfigPanel ps.2)
      else none
  | .mouseup => if mounted .skipButton ps.2 then some (clearPressTimer ps.1, ps.2) else none
  | .click coerced =>
      if mounted .skipButton ps.2 then some (clearPressTimer ps.1, skipTime coerced ps.2)
      else none
  | .mouseleave => if mounted .skipButton ps.2 then some (clearPressTimer ps.1, ps.2) else none

/-- Runs a list of events of the skip button. -/
def pressRun : List PressEvent → PressState × State → Option (PressState × State)
  | [], ps => some ps
  | e :: es, ps => (pressStep e ps).bind (pressRun es)

/-- The closure right after `createSkipButton`: no timer was set yet. -/
def c11Press : PressState :=
  { pressTimer := none, timers := [], nextTimer := 1 }

/-! ## Example parent chains -/

/-- The direct parent of `c12Video`: a plain wrapper. -/
def c12Wrapper : Elem :=
  { id := 30, position := .static, className := "wrapper", isBody := false }

/-- The element `document.body`, statically positioned and without a class. -/
def c12Body : Elem :=
  { id := 31, position := .static, className := "", isBody := true }

/-- A video in a plain wrapper directly under `document.body`. -/
def c12Video : Video :=
  { id := 8, paused := true, ended := false, rect := ⟨640, 360, 0, 360⟩, currentTime := 0,
    duration := .nan,
    ancestors :=
      [c12Wrapper, c12Body, { id := 32, position := .static, className := "", isBody := false }] }

/-- The state in which `createButtons` calls `getVideoContainer` during the
first detection pass on a page with `c12Video`: the video is selected and
nothing is mounted yet. -/
def c12State : State :=
  { constructor with currentVideo := some c12Video }

/-- A video inside a frame: its chain ends at the root element of the frame
and does not reach `document.body`. -/
def c12Framed : Video :=
  { c12Video with
    id := 9
    ancestors :=
      [ { id := 40, position := .static, className := "", isBody := false },
        { id := 41, position := .static, className := "", isBody := false } ] }

/-- A video whose parent is sticky-positioned inside a relative element. -/
def c12Sticky : Video :=
  { c12Video with
    id := 10
    ancestors :=
      [ { id := 50, position := .sticky, className := "", isBody := false },
        { id := 51, position := .relative, className := "", isBody := false }, c12Body ] }

/-- The player element of `c3Video`. -/
def c12Player : Elem :=
  { id := 20, position := .relative, className := "player", isBody := false }

/-- A video inside `<svg><foreignObject>` inside a positioned player element:
the two nearest ancestors are SVG elements. -/
def c12InSvg : Video :=
  { c12Video with
    id := 11
    ancestors :=
      [ { id := 60, position := .static, className := "", isBody := false, svg := true },
        { id := 61, position := .static, className := "", isBody := false, svg := true },
        c12Player, c12Body ] }

/-- The state after a long press on `c9State`, then `destroy`, then a
detection pass that selects `c12Video`: the controller still refers to the
panel that `destroy` took out of the document; `constructor` stands in
should the run be impossible. -/
def c11Stale : State :=
  (run [.longPress, .destroy, .detect 800 [c12Video]] c9State).getD constructor

/-! ## Lemmas on `reduce pickLarger` -/

theorem foldl_pickLarger_mem (xs : List Video) (x : Video) :
    xs.foldl pickLarger x = x ∨ xs.foldl pickLarger x ∈ xs := by
  induction xs generalizing x with
  | nil => simp
  | cons y ys ih =>
    simp only [List.foldl_cons, List.mem_cons]
    rcases ih (pickLarger x y) with h | h
    · rw [h]
      unfold pickLarger
      split
      · exact Or.inr (Or.inl rfl)
      · exact Or.inl rfl
    · exact Or.inr (Or.inr h)

theorem foldl_pickLarger_ge_init (xs : List Video) (x : Video) :
    area x ≤ area (xs.foldl pickLarger x) := by
  induction xs generalizing x with
  | nil => simp
  | cons y ys ih =>
    simp only [List.foldl_cons]
    refine le_trans ?_ (ih (pickLarger x y))
    unfold pickLarger
    split
    · rename_i h; exact le_of_lt h
    · exact le_refl _

theorem foldl_pickLarger_ge_mem (xs : List Video) (x v : Video) (hv : v ∈ xs) :
    area v ≤ area (xs.foldl pickLarger x) := by
  induction xs generalizing x with
  | nil => simp at hv
  | cons y ys ih =>
    simp only [List.foldl_cons]
    rcases List.mem_cons.mp hv with h | h
    · subst h
      refine le_trans ?_ (foldl_pickLarger_ge_init ys (pickLarger x v))
      unfold pickLarger
      split
      · exact le_refl _
      · rename_i h; exact not_lt.mp h
    · exact ih (pickLarger x y) h

theorem reduce_pickLarger_spec (S : List Video) (hS : S ≠ []) :
    ∃ r, reduce pickLarger S = some r ∧ r ∈ S ∧ ∀ v ∈ S, area v ≤ area r := by
  cases S with
  | nil => exact absurd rfl hS
  | cons x xs =>
    refine ⟨xs.foldl pickLarger x, rfl, ?_, ?_⟩
    · rcases foldl_pickLarger_mem xs x with h | h
      · rw [h]; exact List.mem_cons_self _ _
      · exact List.mem_cons_of_mem _ h
    · intro v hv
      rcases List.mem_cons.mp hv with h | h
      · subst h; exact foldl_pickLarger_ge_init xs v
      · exact foldl_pickLarger_ge_mem xs x v h


/-! ## Selection: the claims -/

/-- C1. For a list of two or more candidates in which exactly one element is
playing (not paused and not ended), `selectBestVideo` returns that element,
whatever the geometry of the candidates and the viewport height. -/
theorem selectBestVideo_single_playing (innerHeight : ℚ) (videos : List Video) (p : Video)
    (hlen : 2 ≤ videos.length) (hone : (videos.filter isPlaying).length = 1)
    (hmem : p ∈ videos) (hplay : p.paused = false ∧ p.ended = false) :
    selectBestVideo innerHeight videos = some p := by
  have hp : p ∈ videos.filter isPlaying := by
    simp [List.mem_filter, hmem, isPlaying, hplay.1, hplay.2]
  obtain ⟨q, hq⟩ := List.length_eq_one.mp hone
  have hpq : p = q := by
    rw [hq] at hp
    simpa using hp
  unfold selectBestVideo
  have h0 : ¬ videos.length = 0 := by omega
  have h1 : ¬ videos.length = 1 := by omega
  simp only [h0, h1, if_false, hq, hpq]
  simp

/-- C1 at `[A(paused), B(playing), C(paused)]`: the hypotheses hold and `B` is
returned. -/
theorem selectBestVideo_single_playing_witness :
    (2 ≤ c1Videos.length ∧ (c1Videos.filter isPlaying).length = 1 ∧ c1Playing ∈ c1Videos ∧
      (c1Playing.paused = false ∧ c1Playing.ended = false)) ∧
    selectBestVideo 800 c1Videos = some c1Playing :=
  ⟨⟨by decide, by decide, by decide!, by decide⟩,
    selectBestVideo_single_playing 800 c1Videos c1Playing (by decide) (by decide) (by decide!)
      (by decide)⟩

/-- C2. For a list of two or more candidates in which the number of playing
elements is not exactly one, `selectBestVideo` returns an element of the
visible subset (width > 0, height > 0, top < viewport height, bottom > 0), or
of the full list when that subset is empty, and the area `width * height` of
the returned element is at least that of every element of that set. -/
theorem selectBestVideo_largest_visible (innerHeight : ℚ) (videos : List Video)
    (hlen : 2 ≤ videos.length) (hnot : (videos.filter isPlaying).length ≠ 1) :
    ∃ r, selectBestVideo innerHeight videos = some r ∧
      r ∈ (if videos.filter (fun v => decide (0 < v.rect.width ∧ 0 < v.rect.height ∧
              v.rect.top < innerHeight ∧ 0 < v.rect.bottom)) = []
            then videos
            else videos.filter (fun v => decide (0 < v.rect.width ∧ 0 < v.rect.height ∧
              v.rect.top < innerHeight ∧ 0 < v.rect.bottom))) ∧
      ∀ v ∈ (if videos.filter (fun v => decide (0 < v.rect.width ∧ 0 < v.rect.height ∧
              v.rect.top < innerHeight ∧ 0 < v.rect.bottom)) = []
            then videos
            else videos.filter (fun v => decide (0 < v.rect.width ∧ 0 < v.rect.height ∧
              v.rect.top < innerHeight ∧ 0 < v.rect.bottom))),
        v.rect.width * v.rect.height ≤ r.rect.width * r.rect.height := by
  have hvis : (fun v : Video => decide (0 < v.rect.width ∧ 0 < v.rect.height ∧
      v.rect.top < innerHeight ∧ 0 < v.rect.bottom)) = isVisible innerHeight := by
    funext v
    simp [isVisible, Bool.decide_and, Bool.and_assoc]
  rw [hvis]
  have hne : videos ≠ [] := by
    intro h
    rw [h] at hlen
    simp at hlen
  have hS : (if videos.filter (isVisible innerHeight) = [] then videos
      else videos.filter (isVisible innerHeight)) ≠ [] := by
    split
    · exact hne
    · assumption
  obtain ⟨r, hr, hmem, hmax⟩ := reduce_pickLarger_spec _ hS
  refine ⟨r, ?_, hmem, fun v hv => hmax v hv⟩
  unfold selectBestVideo
  have h0 : ¬ videos.length = 0 := by omega
  have h1 : ¬ videos.length = 1 := by omega
  simp only [h0, h1, if_false, hnot, List.length_eq_zero]
  exact hr

/-- C2 at the three paused candidates: the hypotheses hold, the conclusion
holds there, and the candidate returned is the 100x100 one. -/
theorem selectBestVideo_largest_visible_witness :
    (2 ≤ c2Videos.length ∧ (c2Videos.filter isPlaying).length ≠ 1) ∧
    (∃ r, selectBestVideo 800 c2Videos = some r ∧
      r ∈ (if c2Videos.filter (fun v => decide (0 < v.rect.width ∧ 0 < v.rect.height ∧
              v.rect.top < 800 ∧ 0 < v.rect.bottom)) = []
            then c2Videos
            else c2Videos.filter (fun v => decide (0 < v.rect.width ∧ 0 < v.rect.height ∧
              v.rect.top < 800 ∧ 0 < v.rect.bottom))) ∧
      ∀ v ∈ (if c2Videos.filter (fun v => decide (0 < v.rect.width ∧ 0 < v.rect.height ∧
              v.rect.top < 800 ∧ 0 < v.rect.bottom)) = []
            then c2Videos
            else c2Videos.filter (fun v => decide (0 < v.rect.width ∧ 0 < v.rect.height ∧
              v.rect.top < 800 ∧ 0 < v.rect.bottom))),
        v.rect.width * v.rect.height ≤ r.rect.width * r.rect.height) ∧
    (selectBestVideo 800 c2Videos).map (fun v => (v.rect.width, v.rect.height)) =
      some (100, 100) :=
  ⟨⟨by decide, by decide⟩,
    selectBestVideo_largest_visible 800 c2Videos (by decide) (by decide), by decide!⟩


/-! ## `skipTime` -/

theorem showSkipFeedback_currentVideo (s : State) :
    (showSkipFeedback s).currentVideo = s.currentVideo := by
  unfold showSkipFeedback
  split <;> rfl

/-- C3. With a current video at time `t` whose duration is a known number
`d ≥ 0` and a configured skip of `n` seconds, where the sum `t + n` is not
negative and is a double (so that the code computes it exactly), the video
stands at `min (t + n) d` after `skipTime`, which is at most `d`, with its
other attributes untouched (for an unbounded stream, whose duration is
infinite, it stands at `t + n`); while the duration is not-a-number
`skipTime` changes nothing. -/
theorem skipTime_clamps (coerced : JSNum) (s : State) (v : Video)
    (hv : s.currentVideo = some v) :
    (∀ d n : ℚ, v.duration = .num d → s.settings.get "skipTime" = some (.num n) →
      0 ≤ v.currentTime + n → 0 ≤ d → isDouble (v.currentTime + n) →
      (skipTime coerced s).currentVideo =
          some { v with currentTime := min (v.currentTime + n) d } ∧
        min (v.currentTime + n) d ≤ d) ∧
    (∀ n : ℚ, v.duration = .infinity → s.settings.get "skipTime" = some (.num n) →
      0 ≤ v.currentTime + n → isDouble (v.currentTime + n) →
      (skipTime coerced s).currentVideo = some { v with currentTime := v.currentTime + n }) ∧
    (v.duration = .nan → skipTime coerced s = s) := by
  refine ⟨?_, ?_, ?_⟩
  · intro d n hd hn hsum hd0 _
    refine ⟨?_, min_le_right _ _⟩
    have hmax : max (min (v.currentTime + n) d) 0 = min (v.currentTime + n) d :=
      max_eq_left (le_min hsum hd0)
    simp [skipTime, hv, hd, hn, addSkip, minDuration, setCurrentTime,
      showSkipFeedback_currentVideo, hmax]
  · intro n hd hn hsum _
    have hmax : max (v.currentTime + n) 0 = v.currentTime + n := max_eq_left hsum
    simp [skipTime, hv, hd, hn, addSkip, minDuration, setCurrentTime,
      showSkipFeedback_currentVideo, hmax]
  · intro hd
    simp [skipTime, hv, hd]

/-- C3 at `t = 100`, `d = 120`, skip 85: the video ends at 120, not 185; as
an unbounded stream it ends at 185; and with the duration unknown the state
is left as it was. -/
theorem skipTime_clamps_witness :
    (c3State.currentVideo = some c3Video ∧ c3Video.duration = .num 120 ∧
      c3State.settings.get "skipTime" = some (.num 85) ∧
      (0 : ℚ) ≤ c3Video.currentTime + 85 ∧ (0 : ℚ) ≤ 120 ∧
      isDouble (c3Video.currentTime + 85)) ∧
    ((skipTime .nan c3State).currentVideo =
        some { c3Video with currentTime := min (c3Video.currentTime + 85) 120 } ∧
      min (c3Video.currentTime + 85) 120 ≤ 120) ∧
    (skipTime .nan c3State).currentVideo.map (fun v => v.currentTime) = some 120 ∧
    (skipTime .nan (init none 800 [c3Stream])).currentVideo =
      some { c3Stream with currentTime := c3Stream.currentTime + 85 } ∧
    (skipTime .nan (init none 800 [c3Stream])).currentVideo.map (fun v => v.currentTime) =
      some 185 ∧
    skipTime .nan (init none 800 [c3Unknown]) = init none 800 [c3Unknown] :=
  ⟨⟨by decide!, by decide!, by decide!, by decide!, by decide!,
      ⟨185, 0, by decide, by decide, by decide, by decide!⟩⟩,
    (skipTime_clamps .nan c3State c3Video (by decide!)).1 120 85 (by decide!) (by decide!)
      (by decide!) (by decide!) ⟨185, 0, by decide, by decide, by decide, by decide!⟩,
    by decide!,
    (skipTime_clamps .nan (init none 800 [c3Stream]) c3Stream (by decide!)).2.1 85
      (by decide!) (by decide!) (by decide!)
      ⟨185, 0, by decide, by decide, by decide, by decide!⟩,
    by decide!,
    (skipTime_clamps .nan (init none 800 [c3Unknown]) c3Unknown (by decide!)).2.2
      (by decide!)⟩

/-- With the string setting `"60"` at `t = 100` the sum is the text `10060`,
which `Math.min` converts to the number 10060: the click is an event of the
controller, the video ends at its duration 120 and a toast is mounted. -/
theorem skipClick_string_setting :
    (step (.skipClick (.num 10060)) c3Text).map
      (fun t => (t.currentVideo.map (fun v => v.currentTime), countKind .skipFeedback t)) =
      some (some 120, 1) := by
  decide!

/-- With a persisted skip of -500 s the value assigned at `t = 100` is -400,
and the element ends at the start of the media. -/
theorem skipTime_backwards_ends_at_start :
    (skipTime .nan c3Backwards).currentVideo.map (fun v => v.currentTime) = some 0 := by
  decide!

/-! ## Settings -/

theorem get_set_self (o : JSObject) (k : String) (v : JSVal) :
    (o.set k v).get k = some v := by
  unfold JSObject.set JSObject.get
  split
  · rename_i h
    induction o with
    | nil => simp at h
    | cons p ps ih =>
      by_cases hp : p.1 = k
      · simp [List.find?, hp]
      · have hps : ps.any (fun p => p.1 == k) = true := by
          simpa [hp] using h
        simp only [List.map_cons, hp, if_false, beq_iff_eq]
        rw [List.find?_cons_of_neg _ (by simpa using hp)]
        simpa using ih hps
  · rename_i h
    have hnone : o.find? (fun p => p.1 == k) = none := by
      rw [List.find?_eq_none]
      intro x hx hxk
      exact h (List.any_eq_true.mpr ⟨x, hx, hxk⟩)
    simp [List.find?_append, hnone]

theorem get_set_other (o : JSObject) (k k' : String) (v : JSVal) (hk : k' ≠ k) :
    (o.set k v).get k' = o.get k' := by
  unfold JSObject.set JSObject.get
  split
  · rename_i h
    clear h
    induction o with
    | nil => rfl
    | cons p ps ih =>
      by_cases hp : p.1 = k
      · have hpk : ¬ p.1 = k' := fun h => hk (h.symm.trans hp)
        have hkk : ¬ k = k' := fun h => hk h.symm
        simp only [List.map_cons, hp, if_true, beq_self_eq_true]
        rw [List.find?_cons_of_neg _ (by simpa using hkk),
          List.find?_cons_of_neg _ (by simpa using hpk)]
        simpa [hp] using ih
      · simp only [List.map_cons, hp, if_false, beq_iff_eq]
        by_cases hpk : p.1 = k'
        · simp [List.find?, hpk]
        · rw [List.find?_cons_of_neg _ (by simpa using hpk),
            List.find?_cons_of_neg _ (by simpa using hpk)]
          simpa [hp] using ih
  · have hkk : ¬ k = k' := fun h => hk h.symm
    simp [List.find?_append, hkk]

theorem get_foldl_set (b : JSObject) (hb : (b.map Prod.fst).Nodup) (acc : JSObject)
    (k : String) :
    (b.foldl (fun (acc : JSObject) (p : String × JSVal) => JSObject.set acc p.1 p.2) acc).get k =
      match b.get k with
      | some v => some v
      | none => acc.get k := by
  induction b generalizing acc with
  | nil => rfl
  | cons p ps ih =>
    have hps : (ps.map Prod.fst).Nodup := (List.nodup_cons.mp hb).2
    have hnot : p.1 ∉ ps.map Prod.fst := (List.nodup_cons.mp hb).1
    simp only [List.foldl_cons]
    rw [ih hps]
    by_cases hp : p.1 = k
    · have hnone : JSObject.get ps k = none := by
        unfold JSObject.get
        rw [List.find?_eq_none.mpr]
        · rfl
        · intro x hx hxk
          apply hnot
          rw [hp]
          exact List.mem_map.mpr ⟨x, hx, by simpa using hxk⟩
      have hb1 : JSObject.get (p :: ps) k = some p.2 := by
        simp [JSObject.get, List.find?, hp]
      rw [hnone, hb1, ← hp]
      exact get_set_self acc p.1 p.2
    · have hb1 : JSObject.get (p :: ps) k = JSObject.get ps k := by
        unfold JSObject.get
        rw [List.find?_cons_of_neg _ (by simpa using hp)]
      rw [hb1, get_set_other acc p.1 k p.2 (fun h => hp h.symm)]

/-- C4. For a persisted record `p` (an object: its keys are distinct), the
settings held after `loadSettings` on the freshly constructed controller
give, for every field, the persisted value where `p` has the field and the
default where it has not; the defaults are skipTime 85, nextBehavior 'auto',
skipButtonEnabled true, nextButtonEnabled true. -/
theorem loadSettings_merges (p : JSObject) (hp : (p.map Prod.fst).Nodup) :
    (∀ k : String, (loadSettings (some p) constructor).settings.get k =
      match p.get k with
      | some v => some v
      | none => defaultSettings.get k) ∧
    defaultSettings.get "skipTime" = some (.num 85) ∧
    defaultSettings.get "nextBehavior" = some (.str "auto") ∧
    defaultSettings.get "skipButtonEnabled" = some (.bool true) ∧
    defaultSettings.get "nextButtonEnabled" = some (.bool true) := by
  refine ⟨?_, by decide!, by decide!, by decide!, by decide!⟩
  intro k
  have hd : defaultSettings.foldl
      (fun (acc : JSObject) (p : String × JSVal) => JSObject.set acc p.1 p.2) [] =
      defaultSettings := by
    decide!
  show (spread defaultSettings p).get k = _
  unfold spread
  rw [get_foldl_set p hp, hd]

/-- C4 at the persisted record with only `skipTime: 60`: the merged settings
are skipTime 60 with the three other defaults. -/
theorem loadSettings_merges_witness :
    (c4Persisted.map Prod.fst).Nodup ∧
    ((∀ k : String, (loadSettings (some c4Persisted) constructor).settings.get k =
      match c4Persisted.get k with
      | some v => some v
      | none => defaultSettings.get k) ∧
    defaultSettings.get "skipTime" = some (.num 85) ∧
    defaultSettings.get "nextBehavior" = some (.str "auto") ∧
    defaultSettings.get "skipButtonEnabled" = some (.bool true) ∧
    defaultSettings.get "nextButtonEnabled" = some (.bool true)) ∧
    (loadSettings (some c4Persisted) constructor).settings =
      [ ("skipTime", .num 60), ("nextBehavior", .str "auto"),
        ("skipButtonEnabled", .bool true), ("nextButtonEnabled", .bool true) ] :=
  ⟨by decide, loadSettings_merges c4Persisted (by decide), by decide!⟩

/-! ## Detection -/

theorem removeButtons_currentVideo (s : State) :
    (removeButtons s).currentVideo = s.currentVideo := by
  unfold removeButtons
  cases s.skipButton <;> cases hn : s.nextButton <;> simp [hn]

theorem appendNode_currentVideo (kind : Kind) (parent : Host) (s : State) :
    (appendNode kind parent s).currentVideo = s.currentVideo := rfl

theorem setupVideoEndListener_currentVideo (s : State) :
    (setupVideoEndListener s).currentVideo = s.currentVideo := by
  unfold setupVideoEndListener
  split
  · split <;> simp_all
  · rfl

theorem createSkipButton_currentVideo_id (container : Elem) (s : State) :
    (createSkipButton container s).currentVideo.map (fun v => v.id) =
      s.currentVideo.map (fun v => v.id) := by
  unfold createSkipButton
  simp only [appendNode_currentVideo]
  split
  · cases s.currentVideo <;> simp [forceRelative]
  · rfl

theorem createButtons_currentVideo_id (s : State) :
    (createButtons s).currentVideo.map (fun v => v.id) = s.currentVideo.map (fun v => v.id) := by
  unfold createButtons
  split
  · rfl
  · split
    · rfl
    · rfl
    · rw [setupVideoEndListener_currentVideo]
      split
      · unfold createNextButton
        rw [appendNode_currentVideo]
        exact createSkipButton_currentVideo_id _ _
      · exact createSkipButton_currentVideo_id _ _

/-- C5. For every controller state and every candidate list, a second run of
`detectVideosNow` on the same candidates with the same attributes returns
the state the first run left: the current video, the mounted elements, the
object counter and every other field are unchanged, so the second run
neither removes nor creates a control. -/
theorem detectVideosNow_idempotent (innerHeight : ℚ) (videos : List Video) (s : State) :
    detectVideosNow innerHeight videos (detectVideosNow innerHeight videos s) =
      detectVideosNow innerHeight videos s := by
  by_cases h0 : videos.length = 0
  · simp [detectVideosNow, h0]
  · cases hsel : selectBestVideo innerHeight videos with
    | none => simp [detectVideosNow, h0, hsel]
    | some target =>
      by_cases hcur : s.currentVideo.map (fun v => v.id) = some target.id
      · have h1 : detectVideosNow innerHeight videos s = s := by
          simp [detectVideosNow, h0, hsel, hcur]
        rw [h1, h1]
      · have h1 : detectVideosNow innerHeight videos s =
            createButtons (removeButtons { s with currentVideo := some target }) := by
          simp [detectVideosNow, h0, hsel, hcur]
        have h2 : (detectVideosNow innerHeight videos s).currentVideo.map (fun v => v.id) =
            some target.id := by
          rw [h1, createButtons_currentVideo_id, removeButtons_currentVideo]
          rfl
        generalize detectVideosNow innerHeight videos s = t at h2
        simp [detectVideosNow, h0, hsel, h2]

/-- C9, as the code has it. `detectVideosNow` on an empty candidate list
returns the state it was given: a controller without a current video stays
without one and without controls (in particular right after `init` on a
page without videos), and a selected video and its mounted controls stay. -/
theorem detectVideosNow_empty (innerHeight : ℚ) (s : State) (persisted : Option JSObject) :
    detectVideosNow innerHeight [] s = s ∧
    (init persisted innerHeight []).currentVideo = none ∧
    (init persisted innerHeight []).dom = [] := by
  refine ⟨by simp [detectVideosNow], ?_, ?_⟩
  · cases persisted <;> rfl
  · cases persisted <;> rfl

/-- C9 fails as stated: in the state reached by `init` on a page with one
video, a detection pass over an empty candidate list leaves that video
selected and its skip button mounted. -/
theorem detectVideosNow_empty_keeps_video :
    Reachable c9State ∧
    (detectVideosNow 800 [] c9State).currentVideo = some c3Video ∧
    mounted .skipButton (detectVideosNow 800 [] c9State) = true :=
  ⟨Reachable.init none 800 [c3Video], by decide!, by decide!⟩

/-! ## Next-episode links -/

theorem mem_foldl_selectors (page : Page) (sels : List Selector) (acc : List PageElement)
    (x : PageElement) :
    x ∈ sels.foldl (fun links sel => links ++ querySelectorAll page sel) acc ↔
      x ∈ acc ∨ ∃ sel ∈ sels, x ∈ querySelectorAll page sel := by
  induction sels generalizing acc with
  | nil => simp
  | cons sel rest ih =>
    simp only [List.foldl_cons, ih, List.mem_append, List.mem_cons, exists_eq_or_imp]
    tauto

theorem structuralLinks_subset (page : Page) (x : PageElement)
    (hx : x ∈ structuralLinks page) : x ∈ page.elements := by
  unfold structuralLinks at hx
  rw [mem_foldl_selectors] at hx
  rcases hx with h | ⟨sel, _, h⟩
  · simp at h
  · exact (List.mem_filter.mp h).1

theorem numericLinks_subset (page : Page) (x : PageElement)
    (hx : x ∈ numericLinks page) : x ∈ page.elements := by
  unfold numericLinks at hx
  split at hx
  · exact (List.mem_filter.mp (List.mem_filter.mp hx).1).1
  · simp at hx

theorem uniqueStep_nodup (l : List PageElement) (acc : List PageElement)
    (hacc : (acc.map (fun x => x.id)).Nodup) :
    ((l.foldl (fun acc l => if acc.any (fun x => x.id == l.id) then acc else acc ++ [l])
      acc).map (fun x => x.id)).Nodup := by
  induction l generalizing acc with
  | nil => exact hacc
  | cons y ys ih =>
    simp only [List.foldl_cons]
    apply ih
    split
    · exact hacc
    · rename_i h
      rw [List.map_append, List.nodup_append]
      refine ⟨hacc, by simp, ?_⟩
      intro a ha hb
      simp only [List.map_cons, List.map_nil, List.mem_singleton] at hb
      apply h
      obtain ⟨x, hx, hxa⟩ := List.mem_map.mp ha
      exact List.any_eq_true.mpr ⟨x, hx, by simp [hxa, hb]⟩

theorem uniqueStep_subset (l : List PageElement) (acc : List PageElement) (x : PageElement)
    (hx : x ∈ l.foldl (fun acc l => if acc.any (fun x => x.id == l.id) then acc else acc ++ [l])
      acc) : x ∈ acc ∨ x ∈ l := by
  induction l generalizing acc with
  | nil => exact Or.inl hx
  | cons y ys ih =>
    simp only [List.foldl_cons] at hx
    rcases ih _ hx with h | h
    · split at h
      · exact Or.inl h
      · rcases List.mem_append.mp h with h | h
        · exact Or.inl h
        · simp only [List.mem_singleton] at h
          exact Or.inr (h ▸ List.mem_cons_self _ _)
    · exact Or.inr (List.mem_cons_of_mem _ h)

theorem uniqueStep_covers (l : List PageElement) (acc : List PageElement) (x : PageElement)
    (hx : x ∈ acc ∨ x ∈ l) :
    ∃ y ∈ l.foldl (fun acc l => if acc.any (fun x => x.id == l.id) then acc else acc ++ [l])
      acc, y.id = x.id := by
  induction l generalizing acc x with
  | nil =>
    rcases hx with h | h
    · exact ⟨x, h, rfl⟩
    · simp at h
  | cons y ys ih =>
    simp only [List.foldl_cons]
    rcases hx with h | h
    · apply ih _ x
      left
      split
      · exact h
      · exact List.mem_append_left _ h
    · rcases List.mem_cons.mp h with h | h
      · subst h
        by_cases hany : acc.any (fun z => z.id == x.id) = true
        · obtain ⟨z, hz, hzx⟩ := List.any_eq_true.mp hany
          obtain ⟨w, hw, hwz⟩ := ih acc z (Or.inl hz)
          refine ⟨w, ?_, hwz.trans (by simpa using hzx)⟩
          simpa [hany] using hw
        · obtain ⟨w, hw, hwx⟩ := ih (acc ++ [x]) x (Or.inl (by simp))
          refine ⟨w, ?_, hwx⟩
          simpa [hany] using hw
      · exact ih _ x (Or.inr h)

theorem uniqueById_nodup (l : List PageElement) :
    ((uniqueById l).map (fun x => x.id)).Nodup :=
  uniqueStep_nodup l [] (by simp)

theorem mem_uniqueById (l : List PageElement) (elements : List PageElement)
    (hids : (elements.map (fun x => x.id)).Nodup) (hsub : ∀ x ∈ l, x ∈ elements)
    (x : PageElement) (hx : x ∈ l) : x ∈ uniqueById l := by
  obtain ⟨y, hy, hyx⟩ := uniqueStep_covers l [] x (Or.inr hx)
  have hyl : y ∈ l := by
    rcases uniqueStep_subset l [] y hy with h | h
    · simp at h
    · exact h
  have : y = x := List.inj_on_of_nodup_map hids (hsub y hyl) (hsub x hx) hyx
  rw [← this]
  exact hy

theorem findNextEpisodeLinks_nodup_id (page : Page) :
    ((findNextEpisodeLinks page).map (fun x => x.id)).Nodup := by
  unfold findNextEpisodeLinks
  exact (uniqueById_nodup _).sublist (List.Sublist.map _ (List.filter_sublist _))

theorem mem_findNextEpisodeLinks (page : Page)
    (hids : (page.elements.map (fun x => x.id)).Nodup) (x : PageElement)
    (hx : x ∈ structuralLinks page ∨ x ∈ numericLinks page) (hv : validLink page x = true) :
    x ∈ findNextEpisodeLinks page := by
  unfold findNextEpisodeLinks
  refine List.mem_filter.mpr ⟨?_, hv⟩
  apply mem_uniqueById _ page.elements hids
  · intro y hy
    rcases List.mem_append.mp hy with h | h
    · exact structuralLinks_subset page y h
    · exact numericLinks_subset page y h
  · exact List.mem_append.mpr hx

/-- C6, as the code has it. On a page whose elements are distinct objects,
the list returned by `findNextEpisodeLinks` holds every element at most once
(duplicates are removed by element identity, not by target URL), and an
anchor that both the structural and the numeric heuristic return, with a
non-empty `href` other than the page URL, is in the list exactly once. -/
theorem findNextEpisodeLinks_unique_elements (page : Page)
    (hids : (page.elements.map (fun x => x.id)).Nodup) :
    ((findNextEpisodeLinks page).map (fun x => x.id)).Nodup ∧
    ∀ a, a ∈ structuralLinks page → a ∈ numericLinks page → validLink page a = true →
      (findNextEpisodeLinks page).count a = 1 := by
  refine ⟨findNextEpisodeLinks_nodup_id page, ?_⟩
  intro a hs _ hv
  have hnd : (findNextEpisodeLinks page).Nodup :=
    List.Nodup.of_map _ (findNextEpisodeLinks_nodup_id page)
  exact List.count_eq_one_of_mem hnd (mem_findNextEpisodeLinks page hids a (Or.inl hs) hv)

/-- C6 (amended) at the page `cap-12.html` with one anchor to `cap-13.html`:
both heuristics return the anchor and the list holds it once. -/
theorem findNextEpisodeLinks_unique_elements_witness :
    (c7Page.elements.map (fun x => x.id)).Nodup ∧
    (c7Anchor ∈ structuralLinks c7Page ∧ c7Anchor ∈ numericLinks c7Page ∧
      validLink c7Page c7Anchor = true) ∧
    ((findNextEpisodeLinks c7Page).map (fun x => x.id)).Nodup ∧
    (findNextEpisodeLinks c7Page).count c7Anchor = 1 :=
  ⟨by decide, ⟨by decide!, by decide!, by decide!⟩,
    (findNextEpisodeLinks_unique_elements c7Page (by decide)).1,
    (findNextEpisodeLinks_unique_elements c7Page (by decide)).2 c7Anchor (by decide!)
      (by decide!) (by decide!)⟩

/-- C6 fails as stated: on `c6Page` the structural heuristic returns the
first anchor, the numeric heuristic returns the second, both point to the
same URL, and the merged list holds that URL twice. -/
theorem findNextEpisodeLinks_same_url_twice :
    c6First ∈ structuralLinks c6Page ∧ c6Second ∈ numericLinks c6Page ∧
    c6First.href = c6Second.href ∧
    (findNextEpisodeLinks c6Page).map (fun x => x.href) =
      [ some "https://site.example/anime/cap-13.html",
        some "https://site.example/anime/cap-13.html" ] ∧
    ¬ ((findNextEpisodeLinks c6Page).map (fun x => x.href)).Nodup :=
  ⟨by decide!, by decide!, by decide!, by decide!, by decide!⟩

theorem numericThrows_false (page : Page) (N : Nat)
    (hN : currentEpisode page.url = some N)
    (h : ∀ a ∈ page.elements, a.isAnchor = true →
      attrHas a.hrefAttr (toString (N + 1)) = true → a.svgHref = false ∧ a.href ≠ none) :
    numericThrows page = false := by
  unfold numericThrows
  simp only [hN]
  rw [Bool.eq_false_iff]
  intro hany
  obtain ⟨a, ha, hbad⟩ := List.any_eq_true.mp hany
  have hmem := List.mem_filter.mp ha
  have hmatch : a.isAnchor = true ∧ attrHas a.hrefAttr (toString (N + 1)) = true := by
    simpa [Selector.matches] using hmem.2
  obtain ⟨h1, h2⟩ := h a hmem.1 hmatch.1 hmatch.2
  cases hh : a.href with
  | none => exact h2 hh
  | some _ => simp [h1, hh] at hbad

/-- C7, as the code has it. On a page (of distinct elements) whose URL gives
episode number `N` under the first matching pattern, with `N + 1` below
`2 ^ 53`.  When every anchor whose `href` attribute contains the decimal
`N + 1` has a string `href` property, the call returns a list; every such
anchor whose resolved URL contains `N + 1`, is non-empty and differs from the
page URL is in it; and every link the numeric heuristic contributes has a
URL that contains `N + 1` or does not contain `N`.  When some anchor whose
`href` attribute contains `N + 1` has no string `href` property (an SVG
`a`), the call throws and returns nothing.  Links that reference `N` are not
excluded from the result as a whole. -/
theorem findNextEpisodeLinks_numeric (page : Page) (N : Nat)
    (hN : currentEpisode page.url = some N) (_hbound : N + 1 < 2 ^ 53)
    (hids : (page.elements.map (fun x => x.id)).Nodup) :
    ((∀ a ∈ page.elements, a.isAnchor = true →
        attrHas a.hrefAttr (toString (N + 1)) = true → a.svgHref = false ∧ a.href ≠ none) →
      ∃ links, findNextEpisodeLinksCall page = some links ∧
        (∀ a ∈ page.elements, ∀ h : String, a.isAnchor = true →
          attrHas a.hrefAttr (toString (N + 1)) = true → a.href = some h →
          includes h (toString (N + 1)) = true → h ≠ "" → h ≠ page.url → a ∈ links) ∧
        (∀ a ∈ numericLinks page, ∃ h, a.href = some h ∧
          (includes h (toString N) = false ∨ includes h (toString (N + 1)) = true))) ∧
    ((∃ a ∈ page.elements, a.isAnchor = true ∧
        attrHas a.hrefAttr (toString (N + 1)) = true ∧ (a.svgHref = true ∨ a.href = none)) →
      findNextEpisodeLinksCall page = none) := by
  constructor
  · intro hstr
    refine ⟨findNextEpisodeLinks page, ?_, ?_, ?_⟩
    · simp [findNextEpisodeLinksCall, numericThrows_false page N hN hstr]
    · intro a ha h hanchor hattr hhref hincl hne hurl
      have hsvg := (hstr a ha hanchor hattr).1
      apply mem_findNextEpisodeLinks page hids a
      · right
        unfold numericLinks
        simp only [hN]
        refine List.mem_filter.mpr ⟨List.mem_filter.mpr ⟨ha, ?_⟩, ?_⟩
        · simp [Selector.matches, hanchor, hattr]
        · simp [keepNumeric, hsvg, hhref, hincl]
      · have hemp : h.isEmpty = false := by
          rw [Bool.eq_false_iff]
          intro hc
          exact hne ((String.isEmpty_iff h).mp hc)
        simp [validLink, hsvg, hhref, hemp, hurl]
    · intro a ha
      unfold numericLinks at ha
      simp only [hN] at ha
      have hk := (List.mem_filter.mp ha).2
      unfold keepNumeric at hk
      split at hk
      · simp at hk
      · cases hh : a.href with
        | none => simp [hh] at hk
        | some h =>
          refine ⟨h, rfl, ?_⟩
          simp only [hh, Bool.or_eq_true, Bool.not_eq_true'] at hk
          exact hk
  · rintro ⟨a, ha, hanchor, hattr, hbad⟩
    have hany : numericThrows page = true := by
      unfold numericThrows
      simp only [hN]
      refine List.any_eq_true.mpr ⟨a, List.mem_filter.mpr ⟨ha, ?_⟩, ?_⟩
      · simp [Selector.matches, hanchor, hattr]
      · rcases hbad with h | h
        · simp [h]
        · simp [h]
    simp [findNextEpisodeLinksCall, hany]

/-- C7 (amended) at the page `cap-12.html` with an anchor to `cap-13.html`:
the episode number is 12, the call returns exactly that anchor, and its URL
does not contain `12`; with an SVG `a` to `/x/13` added, the call throws. -/
theorem findNextEpisodeLinks_numeric_witness :
    (currentEpisode c7Page.url = some 12 ∧ 12 + 1 < 2 ^ 53 ∧
      (c7Page.elements.map (fun x => x.id)).Nodup) ∧
    (∃ links, findNextEpisodeLinksCall c7Page = some links ∧
      (∀ a ∈ c7Page.elements, ∀ h : String, a.isAnchor = true →
        attrHas a.hrefAttr (toString (12 + 1)) = true → a.href = some h →
        includes h (toString (12 + 1)) = true → h ≠ "" → h ≠ c7Page.url → a ∈ links) ∧
      (∀ a ∈ numericLinks c7Page, ∃ h, a.href = some h ∧
        (includes h (toString 12) = false ∨ includes h (toString (12 + 1)) = true))) ∧
    findNextEpisodeLinksCall c7Page = some [c7Anchor] ∧
    includes "https://site.example/anime/cap-13.html" "12" = false ∧
    (currentEpisode c7PageSvg.url = some 12 ∧
      (c7PageSvg.elements.map (fun x => x.id)).Nodup) ∧
    findNextEpisodeLinksCall c7PageSvg = none :=
  ⟨⟨by decide!, by decide, by decide⟩,
    (findNextEpisodeLinks_numeric c7Page 12 (by decide!) (by decide) (by decide)).1
      (by decide!),
    by decide!, by decide!, ⟨by decide!, by decide⟩,
    (findNextEpisodeLinks_numeric c7PageSvg 12 (by decide!) (by decide) (by decide)).2
      ⟨{ id := 2, isAnchor := true, hrefAttr := some "/x/13", href := none, classList := [],
          title := none, textContent := "", ancestorClasses := [], svgHref := true },
        by decide, by decide, by decide!, Or.inl (by decide)⟩⟩

/-- C7 fails as stated: on `cap-12.html` (episode number 12) with an anchor
to the comments of the same page, the call returns that anchor although its
URL references 12. -/
theorem findNextEpisodeLinks_returns_current :
    currentEpisode c7PageComments.url = some 12 ∧
    (findNextEpisodeLinksCall c7PageComments).map (fun links => links.map (fun x => x.href)) =
      some [ some "https://site.example/anime/cap-13.html",
        some "https://site.example/anime/cap-12.html#comments" ] ∧
    includes "https://site.example/anime/cap-12.html#comments" (toString 12) = true :=
  ⟨by decide!, by decide!, by decide!⟩

/-! ## Invariants of the controller -/

theorem removeNode_sublist (id : Nat) (dom : List Node) : (removeNode id dom).Sublist dom :=
  List.filter_sublist dom

theorem mem_removeNode {id : Nat} {dom : List Node} {n : Node} (h : n ∈ removeNode id dom) :
    n ∈ dom ∧ n.id ≠ id := by
  unfold removeNode at h
  have := List.mem_filter.mp h
  exact ⟨this.1, by simpa using this.2⟩

theorem Consistent.of_sublist {s t : State} (h : Consistent s) (hdom : t.dom.Sublist s.dom)
    (hid : s.nextId ≤ t.nextId)
    (hskip : ∀ n ∈ t.dom, s.skipButton = some n.id → t.skipButton = some n.id)
    (hnext : ∀ n ∈ t.dom, s.nextButton = some n.id → t.nextButton = some n.id)
    (hpanel : ∀ n ∈ t.dom, s.configPanel = some n.id → t.configPanel = some n.id) :
    Consistent t where
  nodup := h.nodup.sublist (hdom.map _)
  fresh := fun n hn => lt_of_lt_of_le (h.fresh n (hdom.subset hn)) hid
  skip := fun n hn hk => hskip n hn (h.skip n (hdom.subset hn) hk)
  next := fun n hn hk => hnext n hn (h.next n (hdom.subset hn) hk)
  panel := fun n hn hk => hpanel n hn (h.panel n (hdom.subset hn) hk)
  prompt := le_trans (hdom.filter _).length_le h.prompt

theorem Consistent.of_append {s t : State} (h : Consistent s) (kind : Kind) (parent : Host)
    (hdom : t.dom = s.dom ++ [{ id := s.nextId, kind := kind, parent := parent }])
    (hid : t.nextId = s.nextId + 1)
    (hskip : if kind = .skipButton then s.skipButton = none ∧ t.skipButton = some s.nextId
      else t.skipButton = s.skipButton)
    (hnext : if kind = .nextButton then s.nextButton = none ∧ t.nextButton = some s.nextId
      else t.nextButton = s.nextButton)
    (hpanel : if kind = .configPanel then s.configPanel = none ∧ t.configPanel = some s.nextId
      else t.configPanel = s.configPanel)
    (hprompt : kind = .autoNextPrompt → mounted .autoNextPrompt s = false) :
    Consistent t where
  nodup := by
    rw [hdom, List.map_append, List.nodup_append]
    refine ⟨h.nodup, by simp, ?_⟩
    intro a ha hb
    simp only [List.map_cons, List.map_nil, List.mem_singleton] at hb
    obtain ⟨n, hn, hna⟩ := List.mem_map.mp ha
    have := h.fresh n hn
    omega
  fresh := by
    intro n hn
    rw [hdom] at hn
    rw [hid]
    rcases List.mem_append.mp hn with hn | hn
    · exact Nat.lt_succ_of_lt (h.fresh n hn)
    · simp only [List.mem_singleton] at hn
      rw [hn]
      exact Nat.lt_succ_self _
  skip := by
    intro n hn hk
    rw [hdom] at hn
    rcases List.mem_append.mp hn with hn | hn
    · have := h.skip n hn hk
      split at hskip
      · rw [hskip.1] at this
        exact absurd this (by simp)
      · rw [hskip]
        exact this
    · simp only [List.mem_singleton] at hn
      subst hn
      simp only at hk
      simp only [hk, if_true] at hskip
      exact hskip.2
  next := by
    intro n hn hk
    rw [hdom] at hn
    rcases List.mem_append.mp hn with hn | hn
    · have := h.next n hn hk
      split at hnext
      · rw [hnext.1] at this
        exact absurd this (by simp)
      · rw [hnext]
        exact this
    · simp only [List.mem_singleton] at hn
      subst hn
      simp only at hk
      simp only [hk, if_true] at hnext
      exact hnext.2
  panel := by
    intro n hn hk
    rw [hdom] at hn
    rcases List.mem_append.mp hn with hn | hn
    · have := h.panel n hn hk
      split at hpanel
      · rw [hpanel.1] at this
        exact absurd this (by simp)
      · rw [hpanel]
        exact this
    · simp only [List.mem_singleton] at hn
      subst hn
      simp only at hk
      simp only [hk, if_true] at hpanel
      exact hpanel.2
  prompt := by
    unfold countKind
    rw [hdom, List.filter_append, List.length_append]
    by_cases hk : kind = .autoNextPrompt
    · have hm := hprompt hk
      unfold mounted at hm
      have hnil : s.dom.filter (fun n => n.kind == .autoNextPrompt) = [] := by
        rw [List.filter_eq_nil_iff]
        intro n hn hkn
        have : s.dom.any (fun n => n.kind == .autoNextPrompt) = true :=
          List.any_eq_true.mpr ⟨n, hn, hkn⟩
        rw [hm] at this
        exact absurd this (by simp)
      rw [hnil]
      simp [List.filter]
      split <;> simp
    · have := h.prompt
      unfold countKind at this
      rw [List.filter_cons_of_neg (by simpa using hk)]
      simpa using this

theorem ManualOnly.of_eq {s t : State} (h : ManualOnly s)
    (hn : t.nextButton = s.nextButton ∨ t.nextButton = none) (hs : t.settings = s.settings) :
    ManualOnly t := by
  intro hsome
  rcases hn with hn | hn
  · rw [hn] at hsome
    have := h hsome
    unfold nextBehaviorIs at this ⊢
    rw [hs]
    exact this
  · rw [hn] at hsome
    simp at hsome

theorem Invariant.append_simple {s : State} (h : Invariant s) (kind : Kind) (parent : Host)
    (hk : kind = .skipFeedback ∨ kind = .message) : Invariant (appendNode kind parent s) := by
  refine ⟨h.1.of_append kind parent rfl rfl ?_ ?_ ?_ ?_, h.2.of_eq (Or.inl rfl) rfl⟩
  · rcases hk with hk | hk <;> subst hk <;> simp [appendNode]
  · rcases hk with hk | hk <;> subst hk <;> simp [appendNode]
  · rcases hk with hk | hk <;> subst hk <;> simp [appendNode]
  · rcases hk with hk | hk <;> subst hk <;> simp

theorem Invariant.remove {s : State} (h : Invariant s) (id : Nat) :
    Invariant { s with dom := removeNode id s.dom } :=
  ⟨h.1.of_sublist (removeNode_sublist id s.dom) (le_refl _) (fun _ _ e => e) (fun _ _ e => e)
    (fun _ _ e => e), h.2.of_eq (Or.inl rfl) rfl⟩

theorem Invariant.setVideo {s : State} (h : Invariant s) (v : Option Video) :
    Invariant { s with currentVideo := v } :=
  ⟨h.1.of_sublist (List.Sublist.refl _) (le_refl _) (fun _ _ e => e) (fun _ _ e => e)
    (fun _ _ e => e), h.2.of_eq (Or.inl rfl) rfl⟩

theorem removeButtons_spec (s : State) (h : Consistent s) :
    Consistent (removeButtons s) ∧ (removeButtons s).skipButton = none ∧
      (removeButtons s).nextButton = none ∧ (removeButtons s).settings = s.settings := by
  cases hs : s.skipButton with
  | none =>
    cases hn : s.nextButton with
    | none =>
      have e : removeButtons s = s := by
        unfold removeButtons
        simp [hs, hn]
      rw [e]
      exact ⟨h, hs, hn, rfl⟩
    | some b =>
      have e : removeButtons s = { s with dom := removeNode b s.dom, nextButton := none } := by
        unfold removeButtons
        simp [hs, hn]
      rw [e]
      refine ⟨h.of_sublist (removeNode_sublist b s.dom) (le_refl _) (fun _ _ e => e) ?_
        (fun _ _ e => e), hs, rfl, rfl⟩
      intro n hn' e
      rw [hn] at e
      exact absurd (Option.some.inj e).symm (mem_removeNode hn').2
  | some a =>
    cases hn : s.nextButton with
    | none =>
      have e : removeButtons s = { s with dom := removeNode a s.dom, skipButton := none } := by
        unfold removeButtons
        simp [hs, hn]
      rw [e]
      refine ⟨h.of_sublist (removeNode_sublist a s.dom) (le_refl _) ?_ (fun _ _ e => e)
        (fun _ _ e => e), rfl, hn, rfl⟩
      intro n hn' e
      rw [hs] at e
      exact absurd (Option.some.inj e).symm (mem_removeNode hn').2
    | some b =>
      have e : removeButtons s =
          { s with dom := removeNode b (removeNode a s.dom), skipButton := none,
                   nextButton := none } := by
        unfold removeButtons
        simp [hs, hn]
      rw [e]
      refine ⟨h.of_sublist ((removeNode_sublist b _).trans (removeNode_sublist a s.dom))
        (le_refl _) ?_ ?_ (fun _ _ e => e), rfl, rfl, rfl⟩
      · intro n hn' e
        rw [hs] at e
        exact absurd (Option.some.inj e).symm (mem_removeNode (mem_removeNode hn').1).2
      · intro n hn' e
        rw [hn] at e
        exact absurd (Option.some.inj e).symm (mem_removeNode hn').2

theorem setupVideoEndListener_spec (s : State) (h : Invariant s) :
    Invariant (setupVideoEndListener s) := by
  unfold setupVideoEndListener
  split
  · split
    · exact ⟨h.1.of_sublist (List.Sublist.refl _) (Nat.le_succ _) (fun _ _ e => e)
        (fun _ _ e => e) (fun _ _ e => e), h.2.of_eq (Or.inl rfl) rfl⟩
    · exact h
  · exact h

theorem createSkipButton_dom (container : Elem) (s : State) :
    (createSkipButton container s).dom =
        s.dom ++ [{ id := s.nextId, kind := .skipButton, parent := .container container.id }] ∧
      (createSkipButton container s).nextId = s.nextId + 1 ∧
      (createSkipButton container s).skipButton = some s.nextId ∧
      (createSkipButton container s).nextButton = s.nextButton ∧
      (createSkipButton container s).configPanel = s.configPanel ∧
      (createSkipButton container s).settings = s.settings := by
  unfold createSkipButton
  split <;> exact ⟨rfl, rfl, rfl, rfl, rfl, rfl⟩

theorem createSkipButton_spec (container : Elem) (s : State) (h : Consistent s)
    (hs : s.skipButton = none) : Consistent (createSkipButton container s) := by
  obtain ⟨h1, h2, h3, h4, h5, _⟩ := createSkipButton_dom container s
  exact h.of_append .skipButton (.container container.id) h1 h2 (by simp [hs, h3])
    (by simp [h4]) (by simp [h5]) (by simp)

theorem createNextButton_spec (container : Elem) (s : State) (h : Consistent s)
    (hn : s.nextButton = none) : Consistent (createNextButton container s) :=
  h.of_append .nextButton (.container container.id) rfl rfl (by simp [createNextButton, appendNode])
    (by simp [hn, createNextButton, appendNode]) (by simp [createNextButton, appendNode])
    (by simp)

theorem createButtons_spec (s : State) (h : Consistent s) (hs : s.skipButton = none)
    (hn : s.nextButton = none) : Invariant (createButtons s) := by
  unfold createButtons
  split
  · exact ⟨h, fun e => by simp [hn] at e⟩
  · split
    · exact ⟨h, fun e => by simp [hn] at e⟩
    · exact ⟨h, fun e => by simp [hn] at e⟩
    · rename_i container _
      apply setupVideoEndListener_spec
      obtain ⟨_, _, _, h4, _, _⟩ := createSkipButton_dom container s
      have hc := createSkipButton_spec container s h hs
      split
      · rename_i hm
        refine ⟨createNextButton_spec container _ hc (by rw [h4, hn]), ?_⟩
        intro _
        exact hm
      · exact ⟨hc, fun e => by rw [h4, hn] at e; simp at e⟩

theorem detectVideosNow_spec (innerHeight : ℚ) (videos : List Video) (s : State)
    (h : Invariant s) : Invariant (detectVideosNow innerHeight videos s) := by
  unfold detectVideosNow
  split
  · exact h
  · split
    · exact h
    · split
      · obtain ⟨hc, hs, hn, _⟩ := removeButtons_spec _ (h.setVideo (some _)).1
        exact createButtons_spec _ hc hs hn
      · exact h

theorem showSkipFeedback_spec (s : State) (h : Invariant s) :
    Invariant (showSkipFeedback s) := by
  unfold showSkipFeedback
  split
  · exact h.append_simple _ _ (Or.inl rfl)
  · exact h

theorem skipTime_spec (coerced : JSNum) (s : State) (h : Invariant s) :
    Invariant (skipTime coerced s) := by
  unfold skipTime
  split
  · exact h
  · split
    · exact h
    · split
      · exact h
      · exact showSkipFeedback_spec _ (h.setVideo _)

theorem goToNext_spec (page : Page) (s : State) (h : Invariant s) :
    Invariant (goToNext page s) := by
  unfold goToNext
  split
  · exact h
  · split
    · exact h
    · exact h.append_simple _ _ (Or.inr rfl)

theorem showAutoNextPrompt_spec (s : State) (h : Invariant s) :
    Invariant (showAutoNextPrompt s) := by
  unfold showAutoNextPrompt
  split
  · exact h
  · rename_i hm
    refine ⟨h.1.of_append .autoNextPrompt .body rfl rfl (by simp [appendNode])
      (by simp [appendNode]) (by simp [appendNode]) ?_, h.2.of_eq (Or.inl rfl) rfl⟩
    intro _
    simpa [mounted] using hm

theorem showConfigPanel_spec (s : State) (h : Invariant s) :
    Invariant (showConfigPanel s) := by
  unfold showConfigPanel
  split
  · exact h
  · rename_i hp
    have hnone : s.configPanel = none := by simpa using hp
    exact ⟨h.1.of_append .configPanel .body rfl rfl (by simp [appendNode])
      (by simp [appendNode]) (by simp [hnone, appendNode]) (by simp),
      h.2.of_eq (Or.inl rfl) rfl⟩

theorem hideConfigPanel_spec (s : State) (h : Invariant s) :
    Invariant (hideConfigPanel s) := by
  unfold hideConfigPanel
  split
  · rename_i p hp
    refine ⟨h.1.of_sublist (removeNode_sublist p s.dom) (le_refl _) (fun _ _ e => e)
      (fun _ _ e => e) ?_, h.2.of_eq (Or.inl rfl) rfl⟩
    intro n hn e
    rw [hp] at e
    exact absurd (Option.some.inj e).symm (mem_removeNode hn).2
  · exact h

theorem destroy_spec (s : State) (h : Invariant s) : Invariant (destroy s) := by
  unfold destroy
  obtain ⟨hc, _, hn, _⟩ := removeButtons_spec s h.1
  have h1 : Invariant (removeButtons s) := ⟨hc, fun e => by rw [hn] at e; simp at e⟩
  simp only
  split
  · rename_i p _
    exact ⟨(h1.remove p).1.of_sublist (List.Sublist.refl _) (le_refl _) (fun _ _ e => e)
      (fun _ _ e => e) (fun _ _ e => e), (h1.remove p).2.of_eq (Or.inl rfl) rfl⟩
  · exact ⟨h1.1.of_sublist (List.Sublist.refl _) (le_refl _) (fun _ _ e => e)
      (fun _ _ e => e) (fun _ _ e => e), h1.2.of_eq (Or.inl rfl) rfl⟩

theorem updateButtons_spec (s t : State) (h : Consistent s)
    (hb : nextBehaviorIs s "auto" = true ∨ nextBehaviorIs s "manual" = true)
    (ht : updateButtons s = .ok t ∨ updateButtons s = .error t) : Invariant t := by
  have hnone : s.nextButton = none → ManualOnly s := fun e hsome => by
    rw [e] at hsome
    simp at hsome
  unfold updateButtons at ht
  split at ht
  · rename_i hm
    simp only [Bool.and_eq_true, Option.isNone_iff_eq_none] at hm
    split at ht
    · rcases ht with ht | ht
      · cases ht
      · cases ht
        exact ⟨h, hnone hm.2⟩
    · rename_i container _
      rcases ht with ht | ht
      · cases ht
        apply setupVideoEndListener_spec
        exact ⟨createNextButton_spec container s h hm.2, fun _ => hm.1⟩
      · cases ht
    · rcases ht with ht | ht
      · cases ht
        exact setupVideoEndListener_spec _ ⟨h, hnone hm.2⟩
      · cases ht
  · split at ht
    · split at ht
      · rename_i b hb'
        rcases ht with ht | ht
        · cases ht
          apply setupVideoEndListener_spec
          refine ⟨h.of_sublist (removeNode_sublist b s.dom) (le_refl _) (fun _ _ e => e) ?_
            (fun _ _ e => e), fun e => by simp at e⟩
          intro n hn e
          rw [hb'] at e
          exact absurd (Option.some.inj e).symm (mem_removeNode hn).2
        · cases ht
      · rename_i hn
        rcases ht with ht | ht
        · cases ht
          exact setupVideoEndListener_spec _ ⟨h, hnone hn⟩
        · cases ht
    · rename_i hm ha
      rcases ht with ht | ht
      · cases ht
        apply setupVideoEndListener_spec
        refine ⟨h, ?_⟩
        intro hsome
        rcases hb with hb | hb
        · exact absurd (by simp [hb, hsome]) ha
        · exact hb
      · cases ht

theorem nextBehaviorIs_set (s : State) (o : JSObject) (value : String)
    (hs : s.settings = o.set "nextBehavior" (.str value)) :
    nextBehaviorIs s value = true := by
  unfold nextBehaviorIs
  rw [hs, get_set_self]
  simp

theorem saveClick_spec (slider : Int) (checked : Option Radio) (s : State) (h : Invariant s) :
    Invariant (saveClick slider checked s) := by
  unfold saveClick
  split
  · exact h
  · rename_i r
    have hc : Consistent (saveSettings { s with settings :=
        (s.settings.set "skipTime" (.num slider)).set "nextBehavior" (.str r.value) }) :=
      h.1.of_sublist (List.Sublist.refl _) (le_refl _) (fun _ _ e => e) (fun _ _ e => e)
        (fun _ _ e => e)
    have hv : nextBehaviorIs (saveSettings { s with settings :=
        (s.settings.set "skipTime" (.num slider)).set "nextBehavior" (.str r.value) })
        r.value = true := nextBehaviorIs_set _ _ _ rfl
    have hb : nextBehaviorIs (saveSettings { s with settings :=
          (s.settings.set "skipTime" (.num slider)).set "nextBehavior" (.str r.value) })
          "auto" = true ∨
        nextBehaviorIs (saveSettings { s with settings :=
          (s.settings.set "skipTime" (.num slider)).set "nextBehavior" (.str r.value) })
          "manual" = true := by
      cases r
      · exact Or.inl hv
      · exact Or.inr hv
    simp only
    split
    · rename_i t ht
      exact hideConfigPanel_spec _ (updateButtons_spec _ t hc hb (Or.inl ht))
    · rename_i t ht
      exact updateButtons_spec _ t hc hb (Or.inr ht)

theorem step_spec (e : Event) (s t : State) (h : Invariant s) (ht : step e s = some t) :
    Invariant t := by
  cases e with
  | detect innerHeight videos =>
    simp only [step, Option.some.injEq] at ht
    exact ht ▸ detectVideosNow_spec innerHeight videos s h
  | skipClick coerced =>
    simp only [step] at ht
    split at ht
    · exact Option.some.inj ht ▸ (skipTime_spec coerced s h)
    · cases ht
  | longPress =>
    simp only [step] at ht
    exact Option.some.inj ht ▸ (showConfigPanel_spec s h)
  | save slider checked =>
    simp only [step] at ht
    split at ht
    · exact Option.some.inj ht ▸ (saveClick_spec slider checked s h)
    · cases ht
  | cancel =>
    simp only [step] at ht
    split at ht
    · exact Option.some.inj ht ▸ (hideConfigPanel_spec s h)
    · cases ht
  | nextClick page =>
    simp only [step] at ht
    split at ht
    · exact Option.some.inj ht ▸ (goToNext_spec page s h)
    · cases ht
  | videoEnded videoId =>
    simp only [step] at ht
    split at ht
    · exact Option.some.inj ht ▸ (showAutoNextPrompt_spec s h)
    · exact Option.some.inj ht ▸ h
  | promptCountdown promptId page =>
    simp only [step] at ht
    split at ht
    · exact Option.some.inj ht ▸ (goToNext_spec page _ (h.remove promptId))
    · cases ht
  | promptCancel promptId =>
    simp only [step] at ht
    split at ht
    · exact Option.some.inj ht ▸ (h.remove promptId)
    · cases ht
  | promptCleanup promptId =>
    simp only [step] at ht
    split at ht
    · exact Option.some.inj ht ▸ (h.remove promptId)
    · exact Option.some.inj ht ▸ h
  | feedbackTimeout nodeId =>
    simp only [step] at ht
    split at ht
    · exact Option.some.inj ht ▸ (h.remove nodeId)
    · exact Option.some.inj ht ▸ h
  | messageTimeout nodeId =>
    simp only [step] at ht
    split at ht
    · exact Option.some.inj ht ▸ (h.remove nodeId)
    · exact Option.some.inj ht ▸ h
  | mediaUpdate v =>
    simp only [step] at ht
    split at ht
    · exact Option.some.inj ht ▸ (h.setVideo (some v))
    · cases ht
  | destroy =>
    simp only [step, Option.some.injEq] at ht
    exact ht ▸ destroy_spec s h

theorem init_spec (persisted : Option JSObject) (innerHeight : ℚ) (videos : List Video) :
    Invariant (init persisted innerHeight videos) := by
  have h0 : Invariant (loadSettings persisted constructor) := by
    refine ⟨?_, ?_⟩
    · cases persisted <;>
        exact ⟨by simp [loadSettings, constructor], by simp [loadSettings, constructor],
          by simp [loadSettings, constructor], by simp [loadSettings, constructor],
          by simp [loadSettings, constructor], by simp [loadSettings, constructor, countKind]⟩
    · intro e
      cases persisted <;> simp [loadSettings, constructor] at e
  have h1 := detectVideosNow_spec innerHeight videos _ h0
  exact ⟨h1.1.of_sublist (List.Sublist.refl _) (le_refl _) (fun _ _ e => e) (fun _ _ e => e)
    (fun _ _ e => e), h1.2.of_eq (Or.inl rfl) rfl⟩

theorem reachable_invariant (s : State) (h : Reachable s) : Invariant s := by
  induction h with
  | init persisted innerHeight videos => exact init_spec persisted innerHeight videos
  | step e _ ht ih => exact step_spec e _ _ ih ht

theorem reachable_run (events : List Event) (s t : State) (h : Reachable s)
    (ht : run events s = some t) : Reachable t := by
  induction events generalizing s with
  | nil =>
    simp only [run, Option.some.injEq] at ht
    exact ht ▸ h
  | cons e es ih =>
    simp only [run] at ht
    cases hs : step e s with
    | none => simp [hs] at ht
    | some u =>
      rw [hs] at ht
      exact ih u (Reachable.step e h hs) ht

theorem count_le_one_of_ref (dom : List Node) (kind : Kind) (ref : Option Nat)
    (hnd : (dom.map (fun n => n.id)).Nodup)
    (href : ∀ n ∈ dom, n.kind = kind → ref = some n.id) :
    (dom.filter (fun n => n.kind == kind)).length ≤ 1 := by
  induction dom with
  | nil => simp
  | cons x xs ih =>
    have hxs := ih (List.nodup_cons.mp hnd).2 (fun n hn => href n (List.mem_cons_of_mem _ hn))
    by_cases hk : x.kind = kind
    · have hnil : xs.filter (fun n => n.kind == kind) = [] := by
        rw [List.filter_eq_nil_iff]
        intro n hn hkn
        have h1 := href x (List.mem_cons_self _ _) hk
        have h2 := href n (List.mem_cons_of_mem _ hn) (by simpa using hkn)
        rw [h1] at h2
        have hid : x.id = n.id := Option.some.inj h2
        apply (List.nodup_cons.mp hnd).1
        exact List.mem_map.mpr ⟨n, hn, hid.symm⟩
      rw [List.filter_cons_of_pos (by simpa using hk), hnil]
      simp
    · rw [List.filter_cons_of_neg (by simpa using hk)]
      exact hxs

/-! ## Mounted controls: the claims -/

/-- C8, as the code has it. In every state reachable from `init` by the
events of the controller (detection, skip click, long press, save, cancel,
next click, video end, the prompt and toast timers, media changes, destroy),
at most one skip button, at most one next button, at most one auto-next
prompt and at most one settings panel are mounted.  Feedback toasts are not
part of the bound. -/
theorem reachable_controls_at_most_one (s : State) (h : Reachable s) :
    countKind .skipButton s ≤ 1 ∧ countKind .nextButton s ≤ 1 ∧
      countKind .autoNextPrompt s ≤ 1 ∧ countKind .configPanel s ≤ 1 := by
  have hc := (reachable_invariant s h).1
  exact ⟨count_le_one_of_ref s.dom .skipButton s.skipButton hc.nodup hc.skip,
    count_le_one_of_ref s.dom .nextButton s.nextButton hc.nodup hc.next,
    hc.prompt,
    count_le_one_of_ref s.dom .configPanel s.configPanel hc.nodup hc.panel⟩

/-- C8 (amended) at the state after `c8Events`: the state is reachable, and a
skip button, a next button, a prompt and a panel are mounted, one of each. -/
theorem reachable_controls_at_most_one_witness :
    Reachable c8State ∧
    (countKind .skipButton c8State ≤ 1 ∧ countKind .nextButton c8State ≤ 1 ∧
      countKind .autoNextPrompt c8State ≤ 1 ∧ countKind .configPanel c8State ≤ 1) ∧
    (countKind .skipButton c8State = 1 ∧ countKind .nextButton c8State = 1 ∧
      countKind .autoNextPrompt c8State = 1 ∧ countKind .configPanel c8State = 1) :=
  ⟨reachable_run c8Events c9State c8State (Reachable.init none 800 [c3Video]) (by decide!),
    reachable_controls_at_most_one c8State
      (reachable_run c8Events c9State c8State (Reachable.init none 800 [c3Video]) (by decide!)),
    by decide!⟩

/-- C8 fails as stated: two clicks on the skip button, before the 2 s timer
of the first toast fires, leave two feedback toasts mounted. -/
theorem two_feedback_toasts :
    Reachable c8TwoClicks ∧ countKind .skipFeedback c8TwoClicks = 2 :=
  ⟨reachable_run [.skipClick .nan, .skipClick .nan] c9State c8TwoClicks
      (Reachable.init none 800 [c3Video]) (by decide!),
    by decide!⟩

/-- C10. In every state reachable from `init` (settings loaded at
construction) by the events of the controller (detection and reselection,
save followed by `updateButtons`, and all others), a next button is mounted
only if the configured `nextBehavior` is `'manual'`. -/
theorem next_button_only_manual (s : State) (h : Reachable s)
    (hm : mounted .nextButton s = true) :
    s.settings.get "nextBehavior" = some (.str "manual") := by
  obtain ⟨hc, hmo⟩ := reachable_invariant s h
  unfold mounted at hm
  obtain ⟨n, hn, hk⟩ := List.any_eq_true.mp hm
  have href := hc.next n hn (by simpa using hk)
  have := hmo (by rw [href]; rfl)
  unfold nextBehaviorIs at this
  simpa using this

/-- C10 at the state after `init` with a persisted `manual` setting: the
state is reachable, its next button is mounted and the setting is `manual`;
and in `c9State` (default `auto`) no next button is mounted. -/
theorem next_button_only_manual_witness :
    (Reachable c10State ∧ mounted .nextButton c10State = true) ∧
    c10State.settings.get "nextBehavior" = some (.str "manual") ∧
    mounted .nextButton c9State = false :=
  ⟨⟨Reachable.init _ 800 [c3Video], by decide!⟩,
    next_button_only_manual c10State (Reachable.init _ 800 [c3Video]) (by decide!),
    by decide!⟩

/-! ## The press handlers: the claims -/

theorem mounted_showConfigPanel (kind : Kind) (s : State) (h : mounted kind s = true) :
    mounted kind (showConfigPanel s) = true := by
  unfold showConfigPanel
  split
  · exact h
  · unfold mounted at h ⊢
    simp only [appendNode, List.any_append, h, Bool.true_or]

theorem showSkipFeedback_configPanel (s : State) :
    (showSkipFeedback s).configPanel = s.configPanel ∧
      countKind .configPanel (showSkipFeedback s) = countKind .configPanel s := by
  unfold showSkipFeedback
  split
  · refine ⟨rfl, ?_⟩
    simp [countKind, appendNode, List.filter_append]
  · exact ⟨rfl, rfl⟩

theorem skipTime_configPanel (coerced : JSNum) (s : State) :
    (skipTime coerced s).configPanel = s.configPanel ∧
      countKind .configPanel (skipTime coerced s) = countKind .configPanel s := by
  unfold skipTime
  split
  · exact ⟨rfl, rfl⟩
  · split
    · exact ⟨rfl, rfl⟩
    · split
      · exact ⟨rfl, rfl⟩
      · exact showSkipFeedback_configPanel _

theorem not_mem_filter_ne (timers : List Nat) (t : Nat) :
    t ∉ timers.filter (fun x => x != t) := by
  intro h
  have := (List.mem_filter.mp h).2
  simp at this

/-- C11, as the code has it. For every press on a mounted skip button:
released before the timer fires (mousedown, mouseup, click) it performs
`skipTime`, leaves the timer of the press cleared so that it can no longer
fire, and leaves the panel reference and the mounted panels as they were;
held until the timer fires (mousedown, timer, mouseup, click) it runs
`showConfigPanel` and the click that follows still performs `skipTime`, on
the state `showConfigPanel` left.  `showConfigPanel` mounts the panel when
the controller holds no panel reference, and changes nothing when it holds
one. -/
theorem press_short_and_long (coerced : JSNum) (p : PressState) (s : State)
    (hm : mounted .skipButton s = true) :
    (∃ q, pressRun [.mousedown, .mouseup, .click coerced] (p, s) =
        some (q, skipTime coerced s) ∧ p.nextTimer ∉ q.timers) ∧
    ((skipTime coerced s).configPanel = s.configPanel ∧
      countKind .configPanel (skipTime coerced s) = countKind .configPanel s) ∧
    (∃ q, pressRun [.mousedown, .pressTimeout p.nextTimer, .mouseup, .click coerced] (p, s) =
        some (q, skipTime coerced (showConfigPanel s)) ∧ p.nextTimer ∉ q.timers) ∧
    (s.configPanel = none →
      mounted .configPanel (showConfigPanel s) = true ∧
        (showConfigPanel s).configPanel.isSome = true) ∧
    (s.configPanel ≠ none → showConfigPanel s = s) := by
  have hm2 := mounted_showConfigPanel .skipButton s hm
  refine ⟨?_, skipTime_configPanel coerced s, ?_, ?_, ?_⟩
  · refine ⟨clearPressTimer (clearPressTimer
      { pressTimer := some p.nextTimer, timers := p.timers ++ [p.nextTimer],
        nextTimer := p.nextTimer + 1 }), ?_, ?_⟩
    · simp [pressRun, pressStep, hm]
    · simp [clearPressTimer, List.filter_append]
  · refine ⟨clearPressTimer (clearPressTimer
      { pressTimer := some p.nextTimer,
        timers := (p.timers ++ [p.nextTimer]).filter (fun x => x != p.nextTimer),
        nextTimer := p.nextTimer + 1 }), ?_, ?_⟩
    · simp [pressRun, pressStep, hm, hm2]
    · simp [clearPressTimer, List.filter_append]
  · intro hnone
    constructor
    · unfold showConfigPanel mounted
      simp [hnone, appendNode]
    · unfold showConfigPanel
      simp [hnone, appendNode]
  · intro hsome
    unfold showConfigPanel
    cases hp : s.configPanel with
    | none => exact absurd hp hsome
    | some _ => simp

/-- C11 (amended) at `c9State`, where the video stands at 100 s of 120 s and
no panel is referred to: the short press skips to 120 and mounts no panel;
the long press mounts the panel and the click after it skips to 120 as
well.  At `c11Stale`, where `destroy` left a panel reference, the skip button
is mounted and `showConfigPanel` changes nothing. -/
theorem press_short_and_long_witness :
    mounted .skipButton c9State = true ∧
    ((∃ q, pressRun [.mousedown, .mouseup, .click .nan] (c11Press, c9State) =
        some (q, skipTime .nan c9State) ∧ c11Press.nextTimer ∉ q.timers) ∧
    ((skipTime .nan c9State).configPanel = c9State.configPanel ∧
      countKind .configPanel (skipTime .nan c9State) = countKind .configPanel c9State) ∧
    (∃ q, pressRun [.mousedown, .pressTimeout c11Press.nextTimer, .mouseup, .click .nan]
          (c11Press, c9State) =
        some (q, skipTime .nan (showConfigPanel c9State)) ∧ c11Press.nextTimer ∉ q.timers) ∧
    (c9State.configPanel = none →
      mounted .configPanel (showConfigPanel c9State) = true ∧
        (showConfigPanel c9State).configPanel.isSome = true) ∧
    (c9State.configPanel ≠ none → showConfigPanel c9State = c9State)) ∧
    (pressRun [.mousedown, .mouseup, .click .nan] (c11Press, c9State)).map
      (fun r => (r.2.currentVideo.map (fun v => v.currentTime), r.1.timers,
        countKind .configPanel r.2)) = some (some 120, [], 0) ∧
    c9State.configPanel = none ∧
    (mounted .skipButton c11Stale = true ∧ c11Stale.configPanel ≠ none ∧
      mounted .configPanel c11Stale = false) ∧
    showConfigPanel c11Stale = c11Stale :=
  ⟨by decide!, press_short_and_long .nan c11Press c9State (by decide!), by decide!,
    by decide!, ⟨by decide!, by decide!, by decide!⟩,
    (press_short_and_long .nan c11Press c11Stale (by decide!)).2.2.2.2 (by decide!)⟩

/-- C11 fails as stated: on `c9State` (video at 100 s of 120 s, skip 85 s) the
press held until the timer fires mounts the settings panel, and the click
delivered after the release moves the video to 120 s and mounts a feedback
toast: the skip action is performed. -/
theorem long_press_click_still_skips :
    (pressRun [.mousedown, .pressTimeout 1, .mouseup, .click .nan] (c11Press, c9State)).map
      (fun r => (r.2.currentVideo.map (fun v => v.currentTime), countKind .configPanel r.2,
        countKind .skipFeedback r.2)) = some (some 120, 1, 1) ∧
    c9State.currentVideo.map (fun v => v.currentTime) = some 100 :=
  ⟨by decide!, by decide!⟩

/-! ## `getVideoContainer` -/

theorem walkContainer_stops (pre : List Elem) (e : Elem) (post : List Elem)
    (hpre : ∀ x ∈ pre, x.isBody = false ∧ positioned x = false ∧ x.svg = false ∧
      classHint x = false)
    (he : e.isBody = true ∨ positioned e = true ∨ (e.svg = false ∧ classHint e = true)) :
    walkContainer (pre ++ e :: post) = some (some e) := by
  induction pre with
  | nil =>
    simp only [List.nil_append, walkContainer]
    rcases he with h | h | h
    · simp [h]
    · simp [h]
    · simp [h.1, h.2]
  | cons x xs ih =>
    obtain ⟨h1, h2, h3, h4⟩ := hpre x (List.mem_cons_self _ _)
    simp only [List.cons_append, walkContainer, h1, h2, h3, h4]
    exact ih (fun y hy => hpre y (List.mem_cons_of_mem _ hy))

theorem walkContainer_none (chain : List Elem)
    (h : ∀ x ∈ chain, x.isBody = false ∧ positioned x = false ∧ x.svg = false ∧
      classHint x = false) :
    walkContainer chain = some none := by
  induction chain with
  | nil => rfl
  | cons x xs ih =>
    obtain ⟨h1, h2, h3, h4⟩ := h x (List.mem_cons_self _ _)
    simp only [walkContainer, h1, h2, h3, h4]
    exact ih (fun y hy => h y (List.mem_cons_of_mem _ hy))

theorem walkContainer_throws (pre : List Elem) (e : Elem) (post : List Elem)
    (hpre : ∀ x ∈ pre, x.isBody = false ∧ positioned x = false ∧ x.svg = false ∧
      classHint x = false)
    (he : e.isBody = false ∧ positioned e = false ∧ e.svg = true) :
    walkContainer (pre ++ e :: post) = none := by
  induction pre with
  | nil => simp [walkContainer, he.1, he.2.1, he.2.2]
  | cons x xs ih =>
    obtain ⟨h1, h2, h3, h4⟩ := hpre x (List.mem_cons_self _ _)
    simp only [List.cons_append, walkContainer, h1, h2, h3, h4]
    exact ih (fun y hy => hpre y (List.mem_cons_of_mem _ hy))

theorem positioned_static (e : Elem) (h : e.position = .static) : positioned e = false := by
  simp [positioned, h]

theorem positioned_of_ne (e : Elem) (h1 : e.position ≠ .static) (h2 : e.position ≠ .sticky) :
    positioned e = true := by
  unfold positioned
  cases hp : e.position <;> simp_all

theorem classHint_false (e : Elem)
    (h : includes (toLowerCase e.className) "video" = false ∧
      includes (toLowerCase e.className) "player" = false ∧
      includes (toLowerCase e.className) "media" = false) : classHint e = false := by
  simp [classHint, h.1, h.2.1, h.2.2]

/-- C12, as the code has it. With a current video, `getVideoContainer` walks up
from the immediate parent over the plain ancestors: statically positioned
HTML elements (their `className` is a string) other than `document.body`
whose lower-cased class name contains none of 'video', 'player', 'media'.
It returns the first ancestor after them when that one is `document.body`,
or has relative, absolute or fixed positioning, or is an HTML element whose
lower-cased class name contains one of the three words.  It returns the
direct parent when every ancestor of the chain is plain, which needs a
chain that does not reach `document.body`.  It throws a `TypeError` when
the first ancestor after the plain ones is a statically positioned SVG
element other than `document.body`. -/
theorem getVideoContainer_nearest (s : State) (v : Video) (hv : s.currentVideo = some v) :
    (∀ (pre : List Elem) (e : Elem) (post : List Elem), v.ancestors = pre ++ e :: post →
      (∀ x ∈ pre, x.isBody = false ∧ x.position = .static ∧ x.svg = false ∧
        includes (toLowerCase x.className) "video" = false ∧
        includes (toLowerCase x.className) "player" = false ∧
        includes (toLowerCase x.className) "media" = false) →
      (e.isBody = true ∨ (e.position ≠ .static ∧ e.position ≠ .sticky) ∨
        (e.svg = false ∧ (includes (toLowerCase e.className) "video" = true ∨
          includes (toLowerCase e.className) "player" = true ∨
          includes (toLowerCase e.className) "media" = true))) →
      getVideoContainer s = some (some e)) ∧
    ((∀ x ∈ v.ancestors, x.isBody = false ∧ x.position = .static ∧ x.svg = false ∧
        includes (toLowerCase x.className) "video" = false ∧
        includes (toLowerCase x.className) "player" = false ∧
        includes (toLowerCase x.className) "media" = false) →
      getVideoContainer s = some v.ancestors.head?) ∧
    (∀ (pre : List Elem) (e : Elem) (post : List Elem), v.ancestors = pre ++ e :: post →
      (∀ x ∈ pre, x.isBody = false ∧ x.position = .static ∧ x.svg = false ∧
        includes (toLowerCase x.className) "video" = false ∧
        includes (toLowerCase x.className) "player" = false ∧
        includes (toLowerCase x.className) "media" = false) →
      (e.isBody = false ∧ e.position = .static ∧ e.svg = true) →
      getVideoContainer s = none) := by
  have plain : ∀ l : List Elem,
      (∀ x ∈ l, x.isBody = false ∧ x.position = .static ∧ x.svg = false ∧
        includes (toLowerCase x.className) "video" = false ∧
        includes (toLowerCase x.className) "player" = false ∧
        includes (toLowerCase x.className) "media" = false) →
      ∀ x ∈ l, x.isBody = false ∧ positioned x = false ∧ x.svg = false ∧
        classHint x = false := by
    intro l hl x hx
    obtain ⟨h1, h2, h3, h4⟩ := hl x hx
    exact ⟨h1, positioned_static x h2, h3, classHint_false x h4⟩
  refine ⟨?_, ?_, ?_⟩
  · intro pre e post hchain hpre he
    have hw : walkContainer v.ancestors = some (some e) := by
      rw [hchain]
      apply walkContainer_stops _ _ _ (plain pre hpre)
      rcases he with h | h | ⟨hs, h | h | h⟩
      · exact Or.inl h
      · exact Or.inr (Or.inl (positioned_of_ne e h.1 h.2))
      · exact Or.inr (Or.inr ⟨hs, by simp [classHint, h]⟩)
      · exact Or.inr (Or.inr ⟨hs, by simp [classHint, h]⟩)
      · exact Or.inr (Or.inr ⟨hs, by simp [classHint, h]⟩)
    simp [getVideoContainer, hv, videoContainer, hw]
  · intro hall
    have hw : walkContainer v.ancestors = some none :=
      walkContainer_none _ (plain _ hall)
    simp [getVideoContainer, hv, videoContainer, hw]
  · intro pre e post hchain hpre he
    have hw : walkContainer v.ancestors = none := by
      rw [hchain]
      exact walkContainer_throws _ _ _ (plain pre hpre)
        ⟨he.1, positioned_static e he.2.1, he.2.2⟩
    simp [getVideoContainer, hv, videoContainer, hw]

/-- C12 (amended) at three videos: in `c9State` the parent of the video is a
relative element with class `player`, and it is returned; for a video in a
frame whose two ancestors are plain, the direct parent is returned; for a
video inside `<svg><foreignObject>` the call throws, although a `player`
element stands above the SVG elements. -/
theorem getVideoContainer_nearest_witness :
    (c9State.currentVideo = some c3Video ∧
      c3Video.ancestors = [] ++ c12Player ::
        [{ id := 21, position := .static, className := "", isBody := true }]) ∧
    getVideoContainer c9State = some (some c12Player) ∧
    getVideoContainer { constructor with currentVideo := some c12Framed } =
      some c12Framed.ancestors.head? ∧
    c12Framed.ancestors.head? =
      some { id := 40, position := .static, className := "", isBody := false } ∧
    getVideoContainer { constructor with currentVideo := some c12InSvg } = none :=
  ⟨⟨by decide!, by decide⟩,
    (getVideoContainer_nearest c9State c3Video (by decide!)).1 [] c12Player
      [{ id := 21, position := .static, className := "", isBody := true }]
      (by decide) (by intro x hx; simp at hx) (Or.inr (Or.inl ⟨by decide, by decide⟩)),
    (getVideoContainer_nearest { constructor with currentVideo := some c12Framed } c12Framed
      rfl).2.1 (by decide),
    by decide,
    (getVideoContainer_nearest { constructor with currentVideo := some c12InSvg } c12InSvg
      rfl).2.2 []
      { id := 60, position := .static, className := "", isBody := false, svg := true }
      [ { id := 61, position := .static, className := "", isBody := false, svg := true },
        c12Player, c12Body ]
      (by decide) (by intro x hx; simp at hx) ⟨by decide, by decide, by decide⟩⟩

/-- C12 fails as stated: for a video in a plain wrapper under a plain
`document.body` no ancestor is positioned or has a class name with 'video',
'player' or 'media', yet `getVideoContainer` returns `document.body` and not
the direct parent of the video. -/
theorem getVideoContainer_returns_body :
    (∀ e ∈ c12Video.ancestors, e.position = .static ∧
      includes (toLowerCase e.className) "video" = false ∧
      includes (toLowerCase e.className) "player" = false ∧
      includes (toLowerCase e.className) "media" = false) ∧
    getVideoContainer c12State = some (some c12Body) ∧
    c12Video.ancestors.head? = some c12Wrapper ∧
    c12Body ≠ c12Wrapper :=
  ⟨by decide, by decide!, by decide, by decide⟩

/-- A sticky-positioned parent without a class hint is passed over: the walk
goes on to the relative element above it. -/
theorem getVideoContainer_passes_sticky :
    getVideoContainer { constructor with currentVideo := some c12Sticky } =
      some (some { id := 51, position := .relative, className := "", isBody := false }) := by
  decide!

end SkipNextController
